import Mathlib

/-!
Formal model of the seagliderOG1 OG1-conversion pipeline.

This file embeds, as executable Lean definitions, the parts of
`seagliderOG1/convertOG1.py` (together with the tables in
`seagliderOG1/vocabularies.py` and `seagliderOG1/attr_input.py`) that carry the
sequential logic of the pipeline: the dive-state engine
(`assign_profile_number`, `assign_phase`), GPS fusion
(`add_gps_info_to_dataset`), renaming and attribute assignment
(`rename_variables`, `assign_variable_attributes`), unit conversion
(`convert_units`), the metadata reconciler (`update_dataset_attributes`,
`get_contributors`, `get_time_attributes`) and the `process_dataset` driver.

Modelling conventions:
* a floating-point measurement is `Option ℚ`; `none` models NaN;
* an xarray `Dataset` on the `N_MEASUREMENTS` axis is a dimension length plus
  an insertion-ordered association list of named variables (Python-dict
  semantics: updating an existing key keeps its position, a new key is
  appended);
* a Python crash (KeyError, IndexError, ValueError, NameError, AttributeError)
  is `Option.none` or `Except.error`;
* `np.nanmax` over an all-NaN slice yields NaN with a warning; the subsequent
  `np.argmax(values == nan)` is 0, which the model reproduces.
-/

namespace SeagliderOG1

/-- A measurement value along the N_MEASUREMENTS axis; `none` models NaN. -/
abbrev Val := Option ℚ

/-- Kernel-reducible rational addition (`Rat.add` is irreducible); proved equal
to `+` in `qadd_eq`. -/
def qadd (a b : ℚ) : ℚ := Rat.divInt (a.num * b.den + b.num * a.den) (a.den * b.den)

/-- Kernel-reducible rational multiplication; proved equal to `*` in `qmul_eq`. -/
def qmul (a b : ℚ) : ℚ := Rat.divInt (a.num * b.num) (a.den * b.den)

/-- Kernel-reducible rational subtraction; proved equal to `-` in `qsub_eq`. -/
def qsub (a b : ℚ) : ℚ := Rat.divInt (a.num * b.den - b.num * a.den) (a.den * b.den)

theorem qadd_eq (a b : ℚ) : qadd a b = a + b := by
  rw [qadd, Rat.divInt_eq_div]
  have ha : ((a.den : ℚ)) ≠ 0 := by exact_mod_cast a.den_nz
  have hb : ((b.den : ℚ)) ≠ 0 := by exact_mod_cast b.den_nz
  conv_rhs => rw [← Rat.num_div_den a, ← Rat.num_div_den b]
  rw [div_add_div _ _ ha hb]
  push_cast
  ring_nf

theorem qmul_eq (a b : ℚ) : qmul a b = a * b := by
  rw [qmul, Rat.divInt_eq_div]
  have ha : ((a.den : ℚ)) ≠ 0 := by exact_mod_cast a.den_nz
  have hb : ((b.den : ℚ)) ≠ 0 := by exact_mod_cast b.den_nz
  conv_rhs => rw [← Rat.num_div_den a, ← Rat.num_div_den b]
  rw [div_mul_div_comm]
  push_cast
  ring_nf

theorem qsub_eq (a b : ℚ) : qsub a b = a - b := by
  rw [qsub, Rat.divInt_eq_div]
  have ha : ((a.den : ℚ)) ≠ 0 := by exact_mod_cast a.den_nz
  have hb : ((b.den : ℚ)) ≠ 0 := by exact_mod_cast b.den_nz
  conv_rhs => rw [← Rat.num_div_den a, ← Rat.num_div_den b]
  rw [div_sub_div _ _ ha hb]
  push_cast
  ring_nf

theorem qadd_half (d : ℚ) : qadd d (Rat.divInt 1 2) = d + 1/2 := by
  rw [qadd_eq]
  norm_num [Rat.divInt_eq_div]

theorem qlin_eq : (fun q : ℚ => qsub (qmul 2 q) 1) = (fun q : ℚ => 2 * q - 1) := by
  funext q
  rw [qsub_eq, qmul_eq]

/-- An insertion-ordered, string-valued attribute dictionary. -/
abbrev AttrMap := List (String × String)

/-- One data variable: its values along N_MEASUREMENTS and its attributes. -/
structure Var where
  values : List Val
  attrs : AttrMap
deriving DecidableEq, Repr

/-- A dataset on the single N_MEASUREMENTS axis. -/
structure DSet where
  len : Nat
  vars : List (String × Var)
deriving DecidableEq, Repr

/-- Python-dict lookup on an insertion-ordered association list. -/
def alookup {α : Type} (l : List (String × α)) (k : String) : Option α :=
  (l.find? (fun p => p.1 == k)).map (fun p => p.2)

/-- Python-dict update: overwrite the first occurrence of an existing key in
place, otherwise append the new key at the end. -/
def aset {α : Type} : List (String × α) → String → α → List (String × α)
  | [], k, v => [(k, v)]
  | p :: l, k, v => if p.1 == k then (k, v) :: l else p :: aset l k v

/-- Python-dict deletion of a key. -/
def adrop {α : Type} (l : List (String × α)) (k : String) : List (String × α) :=
  l.filter (fun p => p.1 != k)

/-- Key list of an association list, in insertion order. -/
def akeys {α : Type} (l : List (String × α)) : List String := l.map (fun p => p.1)

/-- Python `k in d` membership test for dictionaries. -/
def hasKey {α : Type} (l : List (String × α)) (k : String) : Bool :=
  l.any (fun p => p.1 == k)

theorem alookup_nil {α : Type} (k : String) : alookup ([] : List (String × α)) k = none := rfl

theorem alookup_cons {α : Type} (p : String × α) (l : List (String × α)) (k : String) :
    alookup (p :: l) k = if p.1 = k then some p.2 else alookup l k := by
  simp only [alookup, List.find?]
  by_cases h : p.1 = k
  · simp [h]
  · simp [h, beq_eq_false_iff_ne.mpr h]

theorem aset_cons {α : Type} (p : String × α) (l : List (String × α)) (k : String) (v : α) :
    aset (p :: l) k v = if p.1 = k then (k, v) :: l else p :: aset l k v := by
  rcases eq_or_ne p.1 k with hp | hp
  · simp [aset, hp]
  · simp [aset, hp, beq_eq_false_iff_ne.mpr hp]

theorem alookup_aset {α : Type} (l : List (String × α)) (k : String) (v : α) (m : String) :
    alookup (aset l k v) m = if m = k then some v else alookup l m := by
  induction l with
  | nil =>
    rcases eq_or_ne m k with h | h
    · simp [aset, alookup_cons, h]
    · simp only [aset, alookup_cons, alookup_nil]
      rw [if_neg (Ne.symm h), if_neg h]
  | cons p l ih =>
    rcases eq_or_ne p.1 k with hp | hp
    · rw [aset_cons, if_pos hp]
      rcases eq_or_ne m k with h | h
      · subst h
        simp [alookup_cons]
      · rw [alookup_cons, if_neg (Ne.symm h), if_neg h, alookup_cons,
          if_neg (by rw [hp]; exact Ne.symm h)]
    · rw [aset_cons, if_neg hp]
      rcases eq_or_ne m k with h | h
      · subst h
        rw [alookup_cons, if_neg hp, ih, if_pos rfl, if_pos rfl]
      · rw [alookup_cons, ih, if_neg h, if_neg h, alookup_cons]

theorem alookup_adrop {α : Type} (l : List (String × α)) (k m : String) :
    alookup (adrop l k) m = if m = k then none else alookup l m := by
  induction l with
  | nil => rcases eq_or_ne m k with h | h <;> simp [adrop, alookup_nil, h]
  | cons p l ih =>
    simp only [adrop, List.filter_cons] at ih ⊢
    rcases eq_or_ne p.1 k with hp | hp
    · rw [if_neg (by simp [hp])]
      rcases eq_or_ne m k with h | h
      · rw [ih, if_pos h, if_pos h]
      · rw [ih, if_neg h, if_neg h, alookup_cons, if_neg (by rw [hp]; exact Ne.symm h)]
    · rw [if_pos (by simp [hp])]
      rcases eq_or_ne m k with h | h
      · rw [if_pos h, alookup_cons, if_neg (by rw [← h] at hp; exact hp), ih, if_pos h]
      · rw [if_neg h, alookup_cons, alookup_cons, ih, if_neg h]

theorem hasKey_iff_alookup {α : Type} (l : List (String × α)) (k : String) :
    hasKey l k = true ↔ (alookup l k).isSome = true := by
  induction l with
  | nil => simp [hasKey, alookup_nil]
  | cons p l ih =>
    rcases eq_or_ne p.1 k with hp | hp
    · simp [hasKey, alookup_cons, hp]
    · simp only [hasKey, List.any_cons, alookup_cons, if_neg hp,
        beq_eq_false_iff_ne.mpr hp, Bool.false_or]
      exact ih

/-- Variable lookup `ds[name]`; `none` models a KeyError. -/
def lookupVar (ds : DSet) (n : String) : Option Var := alookup ds.vars n

/-- Assignment `ds[name] = var`. -/
def setVar (ds : DSet) (n : String) (v : Var) : DSet := ⟨ds.len, aset ds.vars n v⟩

/-- Deletion `ds.drop_vars(name)` (a no-op when the name is absent). -/
def dropVar (ds : DSet) (n : String) : DSet := ⟨ds.len, adrop ds.vars n⟩

/-- Membership `name in ds.variables`. -/
def hasVar (ds : DSet) (n : String) : Bool := hasKey ds.vars n

/-- Value of variable `n` at index `i` (NaN when the variable or index is absent). -/
def getVal (ds : DSet) (n : String) (i : Nat) : Val :=
  match lookupVar ds n with
  | none => none
  | some v => v.values.getD i none

theorem lookupVar_setVar (ds : DSet) (n : String) (v : Var) (m : String) :
    lookupVar (setVar ds n v) m = if m = n then some v else lookupVar ds m :=
  alookup_aset ds.vars n v m

theorem lookupVar_dropVar (ds : DSet) (n m : String) :
    lookupVar (dropVar ds n) m = if m = n then none else lookupVar ds m :=
  alookup_adrop ds.vars n m

theorem len_setVar (ds : DSet) (n : String) (v : Var) : (setVar ds n v).len = ds.len := rfl

theorem len_dropVar (ds : DSet) (n : String) : (dropVar ds n).len = ds.len := rfl

theorem getVal_setVar (ds : DSet) (n : String) (v : Var) (m : String) (i : Nat) :
    getVal (setVar ds n v) m i =
      if m = n then v.values.getD i none else getVal ds m i := by
  by_cases h : m = n <;> simp [getVal, lookupVar_setVar, h]

/-!
Dive-state engine: `assign_profile_number` and `assign_phase`
(`convertOG1.py` lines 418-515; the identical copies live in `tools.py`).
-/

/-- Python slice `xs[s : e + 1]`. -/
def slice (xs : List Val) (s e : Nat) : List Val := (xs.drop s).take (e + 1 - s)

/-- NumPy slice assignment `xs[lo : hi + 1] = v`. -/
def setRange (xs : List Val) (lo hi : Nat) (v : Val) : List Val :=
  xs.mapIdx (fun i x => if lo ≤ i ∧ i ≤ hi then v else x)

/-- NaN-ignoring binary maximum (NaN is the identity). -/
def maxVal (v : Val) (m : Option ℚ) : Option ℚ :=
  match v, m with
  | none, m => m
  | some a, none => some a
  | some a, some b => some (max a b)

/-- Value of `np.nanmax`: the maximum over the non-NaN entries, `none` (NaN)
when every entry is NaN. -/
def nanMax : List Val → Option ℚ
  | [] => none
  | v :: xs => maxVal v (nanMax xs)

/-- Model of `np.argmax(values == np.nanmax(values))` over a slice: the index of
the first occurrence of the maximum, and 0 when the slice is all NaN (NumPy
compares `values == nan`, which is everywhere false, so `argmax` returns 0). -/
def pmaxIndexRel (xs : List Val) : Nat :=
  match nanMax xs with
  | none => 0
  | some p => xs.findIdx (fun v => v == some p)

/-- Extraction of the dive-number column; `none` models the IndexError raised by
`dive_indices[0]` when `np.unique` hands the loop a NaN dive number. -/
def allSome (xs : List Val) : Option (List ℚ) := xs.mapM id

/-- Insertion of an element into a sorted list (structural sorting helper). -/
def insertLe {α : Type} (le : α → α → Bool) (a : α) : List α → List α
  | [] => [a]
  | b :: l => if le a b then a :: b :: l else b :: insertLe le a l

/-- Insertion sort by the boolean relation `le` (kernel-reducible). -/
def sortLe {α : Type} (le : α → α → Bool) (xs : List α) : List α :=
  xs.foldr (insertLe le) []

/-- Model of `np.unique`: the distinct values in ascending order. -/
def uniqueSorted (xs : List ℚ) : List ℚ :=
  (sortLe (fun a b => decide (a ≤ b)) xs).dedup

/-- Model of `np.where(divenum == dive)[0]` followed by taking the first and
last entries: the inclusive index range `[start_index, end_index]` of a dive. -/
def diveRange (dvals : List ℚ) (d : ℚ) : Option (Nat × Nat) :=
  match (List.range dvals.length).filter (fun i => dvals.getD i 0 == d) with
  | [] => none
  | i :: rest => some (i, (i :: rest).getLastD i)

/-- Loop body of `assign_profile_number` for one dive number `d`: locate the
dive range, find the first index of maximal pressure, write `d` on the descent
and `d + 0.5` on the ascent into `dive_num_cast`, then rebuild
`PROFILE_NUMBER = 2 * dive_num_cast - 1`. -/
def profileStep (dvals : List ℚ) (ds : DSet) (d : ℚ) : Option DSet :=
  match diveRange dvals d with
  | none => some ds
  | some (s, e) =>
    match lookupVar ds "PRES", lookupVar ds "dive_num_cast" with
    | some presVar, some dnc =>
      let pidx := s + pmaxIndexRel (slice presVar.values s e)
      let v2 := setRange (setRange dnc.values s pidx (some d)) (pidx + 1) e
        (some (qadd d (Rat.divInt 1 2)))
      let ds1 := setVar ds "dive_num_cast" { dnc with values := v2 }
      let ds2 := dropVar ds1 "PROFILE_NUMBER"
      some (setVar ds2 "PROFILE_NUMBER"
        ⟨v2.map (Option.map (fun q => qsub (qmul 2 q) 1)), []⟩)
    | _, _ => none

/-- Model of `assign_profile_number(ds, divenum_str)`: drop any stale
`dive_num_cast`, initialise it to NaN, then run `profileStep` for each distinct
dive number in ascending (`np.unique`) order. -/
def assign_profile_number (ds : DSet) (divenumStr : String) : Option DSet := do
  let ds1 := setVar (dropVar ds "dive_num_cast") "dive_num_cast"
    ⟨List.replicate ds.len none, []⟩
  let dv ← lookupVar ds1 divenumStr
  let dvals ← allSome dv.values
  (uniqueSorted dvals).foldlM (profileStep dvals) ds1

/-- The first two entries of `np.where(~np.isnan(time_gps_slice))[0]`. -/
def firstTwoValid (xs : List Val) : Option (Nat × Nat) :=
  match (List.range xs.length).filter (fun j => (xs.getD j none).isSome) with
  | r0 :: r1 :: _ => some (r0, r1)
  | _ => none

/-- Loop body of `assign_phase` for one dive number `d`: phase 2 on the descent
(through the pressure maximum), phase 1 on the ascent, then phase 3 overwritten
between the first two valid `TIME_GPS` indices when at least two exist. -/
def phaseStep (dvals : List ℚ) (ds : DSet) (d : ℚ) : Option DSet :=
  match diveRange dvals d with
  | none => some ds
  | some (s, e) =>
    match lookupVar ds "PRES", lookupVar ds "PHASE", lookupVar ds "TIME_GPS" with
    | some presVar, some ph, some tg =>
      let pidx := s + pmaxIndexRel (slice presVar.values s e)
      let p1 := setRange (setRange ph.values s pidx (some 2)) (pidx + 1) e (some 1)
      let p2 :=
        match firstTwoValid (slice tg.values s e) with
        | some (r0, r1) => setRange p1 (s + r0) (s + r1) (some 3)
        | none => p1
      some (setVar ds "PHASE" { ph with values := p2 })
    | _, _, _ => none

/-- Model of `assign_phase(ds)`: pick the dive-number variable name by priority
(`dive_number`, `divenum`, `dive_num`; ValueError otherwise), initialise
`PHASE` to NaN and `PHASE_QC` to integer zeros, then run `phaseStep` per
distinct dive number in ascending order. -/
def divenumKey (ds : DSet) : Option String :=
  if hasVar ds "dive_number" then some "dive_number"
  else if hasVar ds "divenum" then some "divenum"
  else if hasVar ds "dive_num" then some "dive_num"
  else none

def assign_phase (ds : DSet) : Option DSet := do
  let divenumStr ← divenumKey ds
  let ds1 := setVar ds "PHASE" ⟨List.replicate ds.len none, []⟩
  let ds2 := setVar ds1 "PHASE_QC" ⟨List.replicate ds.len (some 0), []⟩
  let dv ← lookupVar ds2 divenumStr
  let dvals ← allSome dv.values
  (uniqueSorted dvals).foldlM (phaseStep dvals) ds2

/-!
Declarative characterisations used by the theorems: the first index of the
NaN-ignoring pressure maximum, the first two valid GPS indices, and
contiguity of a dive-number column.
-/

/-- Index `ridx` holds the first occurrence of the maximum `p` of the slice,
NaNs ignored (the spec reading of `pmax` and `pmax_index`). -/
def IsFirstNanMax (xs : List Val) (ridx : Nat) (p : ℚ) : Prop :=
  xs.getD ridx none = some p ∧
  (∀ j < xs.length, ((xs.getD j none).getD p) ≤ p) ∧
  (∀ j < ridx, xs.getD j none ≠ some p)

/-- Indices `r0 < r1` are the first and second valid (non-NaN) entries. -/
def FirstTwoValid (xs : List Val) (r0 r1 : Nat) : Prop :=
  r0 < r1 ∧ (xs.getD r0 none).isSome = true ∧ (xs.getD r1 none).isSome = true ∧
  (∀ j < r0, (xs.getD j none).isSome = false) ∧
  (∀ j < r1, r0 < j → (xs.getD j none).isSome = false)

/-- Every dive number occupies one contiguous index block of the stream. -/
def Contiguous (dvals : List ℚ) : Prop :=
  ∀ i < dvals.length, ∀ j < dvals.length, ∀ k < dvals.length,
    i ≤ j → j ≤ k → dvals.getD i 0 = dvals.getD k 0 → dvals.getD j 0 = dvals.getD k 0

instance (xs : List Val) (ridx : Nat) (p : ℚ) : Decidable (IsFirstNanMax xs ridx p) := by
  unfold IsFirstNanMax
  infer_instance

instance (xs : List Val) (r0 r1 : Nat) : Decidable (FirstTwoValid xs r0 r1) := by
  unfold FirstTwoValid
  infer_instance

instance (dvals : List ℚ) : Decidable (Contiguous dvals) := by
  unfold Contiguous
  exact @Nat.decidableBallLT _ _ (fun _ _ =>
    @Nat.decidableBallLT _ _ (fun _ _ =>
      @Nat.decidableBallLT _ _ (fun _ _ => inferInstance)))

theorem mem_insertLe {α : Type} (le : α → α → Bool) (a x : α) :
    ∀ l : List α, x ∈ insertLe le a l ↔ x = a ∨ x ∈ l := by
  intro l
  induction l with
  | nil => simp [insertLe]
  | cons b l ih =>
    rcases hc : le a b with _ | _
    · simp only [insertLe, hc, Bool.false_eq_true, if_false, List.mem_cons, ih]
      tauto
    · simp only [insertLe, hc, if_true, List.mem_cons]

theorem mem_sortLe {α : Type} {le : α → α → Bool} {x : α} {xs : List α} :
    x ∈ sortLe le xs ↔ x ∈ xs := by
  induction xs with
  | nil => simp [sortLe]
  | cons b l ih =>
    simp only [sortLe, List.foldr_cons, mem_insertLe, List.mem_cons]
    rw [sortLe] at ih
    rw [ih]

theorem length_insertLe {α : Type} (le : α → α → Bool) (a : α) :
    ∀ l : List α, (insertLe le a l).length = l.length + 1 := by
  intro l
  induction l with
  | nil => rfl
  | cons b l ih =>
    rcases hc : le a b with _ | _ <;> simp [insertLe, hc, ih]

theorem length_sortLe {α : Type} (le : α → α → Bool) (xs : List α) :
    (sortLe le xs).length = xs.length := by
  induction xs with
  | nil => rfl
  | cons b l ih =>
    rw [sortLe, List.foldr_cons, length_insertLe, List.length_cons]
    rw [sortLe] at ih
    rw [ih]

theorem pairwise_insertLe {α : Type} {le : α → α → Bool}
    (htot : ∀ a b, le a b = true ∨ le b a = true)
    (htrans : ∀ a b c, le a b = true → le b c = true → le a c = true) (a : α) :
    ∀ l : List α, l.Pairwise (fun x y => le x y = true) →
      (insertLe le a l).Pairwise (fun x y => le x y = true) := by
  intro l
  induction l with
  | nil => intro _; simp [insertLe]
  | cons b l ih =>
    intro hp
    obtain ⟨hb, hl⟩ := List.pairwise_cons.mp hp
    rcases hc : le a b with _ | _
    · have hba : le b a = true := by
        rcases htot a b with h | h
        · rw [h] at hc; exact Bool.noConfusion hc
        · exact h
      simp only [insertLe, hc, Bool.false_eq_true, if_false]
      refine List.pairwise_cons.mpr ⟨?_, ih hl⟩
      intro y hy
      rcases (mem_insertLe le a y l).mp hy with rfl | hy
      · exact hba
      · exact hb y hy
    · simp only [insertLe, hc, if_true]
      refine List.pairwise_cons.mpr ⟨?_, hp⟩
      intro y hy
      rcases List.mem_cons.mp hy with rfl | hy
      · exact hc
      · exact htrans a b y hc (hb y hy)

theorem pairwise_sortLe {α : Type} {le : α → α → Bool}
    (htot : ∀ a b, le a b = true ∨ le b a = true)
    (htrans : ∀ a b c, le a b = true → le b c = true → le a c = true) (xs : List α) :
    (sortLe le xs).Pairwise (fun x y => le x y = true) := by
  induction xs with
  | nil => exact List.Pairwise.nil
  | cons b l ih => exact pairwise_insertLe htot htrans b _ ih

/-!
Basic lemmas: range assignment, mapped values, `nanMax`, `pmaxIndexRel`,
`diveRange` and `firstTwoValid`.
-/

theorem length_setRange (xs : List Val) (lo hi : Nat) (v : Val) :
    (setRange xs lo hi v).length = xs.length := by
  simp [setRange]

theorem getD_setRange (xs : List Val) (lo hi : Nat) (v : Val) (i : Nat) :
    (setRange xs lo hi v).getD i none =
      if lo ≤ i ∧ i ≤ hi ∧ i < xs.length then v else xs.getD i none := by
  rcases lt_or_ge i xs.length with h | h
  · have h2 : i < (setRange xs lo hi v).length := by rwa [length_setRange]
    have hm : (setRange xs lo hi v)[i] = if lo ≤ i ∧ i ≤ hi then v else xs[i] := by
      simp [setRange]
    rw [List.getD_eq_getElem _ _ h2, hm, List.getD_eq_getElem _ _ h]
    by_cases hc : lo ≤ i ∧ i ≤ hi
    · rw [if_pos hc, if_pos ⟨hc.1, hc.2, h⟩]
    · rw [if_neg hc, if_neg (fun hcc => hc ⟨hcc.1, hcc.2.1⟩)]
  · have h1 : (setRange xs lo hi v).length ≤ i := by rwa [length_setRange]
    rw [List.getD_eq_default _ _ h1, List.getD_eq_default _ _ h,
      if_neg (fun hc => absurd hc.2.2 (not_lt.mpr h))]

theorem getD_map_optionMap (g : ℚ → ℚ) (l : List Val) (i : Nat) :
    (l.map (Option.map g)).getD i none = Option.map g (l.getD i none) := by
  induction l generalizing i with
  | nil => simp
  | cons a l ih =>
    cases i with
    | zero => simp
    | succ n => simpa using ih n

theorem nanMax_mem : ∀ (xs : List Val) (p : ℚ), nanMax xs = some p → some p ∈ xs := by
  intro xs
  induction xs with
  | nil => intro p h; simp [nanMax] at h
  | cons v xs ih =>
    intro p h
    cases v with
    | none =>
      exact List.mem_cons_of_mem _ (ih p (by simpa [nanMax, maxVal] using h))
    | some a =>
      rcases hm : nanMax xs with _ | b
      · rw [nanMax, hm] at h
        simp only [maxVal, Option.some.injEq] at h
        subst h
        exact List.mem_cons_self _ _
      · rw [nanMax, hm] at h
        simp only [maxVal, Option.some.injEq] at h
        subst h
        rcases max_choice a b with hc | hc
        · rw [hc]; exact List.mem_cons_self _ _
        · rw [hc]; exact List.mem_cons_of_mem _ (ih b hm)

theorem nanMax_isSome : ∀ (xs : List Val) (q : ℚ), some q ∈ xs → (nanMax xs).isSome = true := by
  intro xs
  induction xs with
  | nil => intro q h; simp at h
  | cons v xs ih =>
    intro q h
    rcases List.mem_cons.mp h with h | h
    · rw [← h, nanMax]
      cases hm : nanMax xs <;> simp [maxVal]
    · have := ih q h
      rcases hm : nanMax xs with _ | b
      · rw [hm] at this; simp at this
      · rw [nanMax, hm]; cases v <;> simp [maxVal]

theorem nanMax_ub : ∀ (xs : List Val) (p : ℚ), nanMax xs = some p →
    ∀ q : ℚ, some q ∈ xs → q ≤ p := by
  intro xs
  induction xs with
  | nil => intro p _ q h; simp at h
  | cons v xs ih =>
    intro p h q hq
    rcases List.mem_cons.mp hq with hq | hq
    · rw [← hq, nanMax] at h
      rcases hm : nanMax xs with _ | b <;> rw [hm] at h <;>
        simp only [maxVal, Option.some.injEq] at h
      · exact le_of_eq h
      · rw [← h]; exact le_max_left _ _
    · have hs := nanMax_isSome xs q hq
      rcases hm : nanMax xs with _ | b
      · rw [hm] at hs; simp at hs
      · have hb := ih b hm q hq
        rw [nanMax, hm] at h
        cases v with
        | none => simp only [maxVal] at h; cases h; exact hb
        | some a =>
          simp only [maxVal, Option.some.injEq] at h
          rw [← h]
          exact le_trans hb (le_max_right _ _)

theorem pmaxIndexRel_eq {xs : List Val} {ridx : Nat} {p : ℚ}
    (h : IsFirstNanMax xs ridx p) : pmaxIndexRel xs = ridx := by
  obtain ⟨h1, h2, h3⟩ := h
  have hlt : ridx < xs.length := by
    by_contra hn
    rw [List.getD_eq_default _ _ (not_lt.mp hn)] at h1
    exact Option.noConfusion h1
  have hpmem : some p ∈ xs := by
    rw [List.getD_eq_getElem _ _ hlt] at h1
    exact h1 ▸ List.getElem_mem hlt
  have hs := nanMax_isSome xs p hpmem
  rcases hm : nanMax xs with _ | m
  · rw [hm] at hs; simp at hs
  · have hmem := nanMax_mem xs m hm
    obtain ⟨j, hj, hje⟩ := List.mem_iff_getElem.mp hmem
    have hmp : m ≤ p := by
      have := h2 j hj
      rw [List.getD_eq_getElem _ _ hj, hje] at this
      simpa using this
    have hpm : p ≤ m := nanMax_ub xs m hm p hpmem
    have hmp2 : m = p := le_antisymm hmp hpm
    subst hmp2
    rw [pmaxIndexRel, hm]
    refine (List.findIdx_eq hlt).mpr ⟨?_, ?_⟩
    · rw [← List.getD_eq_getElem xs none hlt, h1]
      simp
    · intro j hji
      have hjlt : j < xs.length := lt_trans hji hlt
      have := h3 j hji
      rw [List.getD_eq_getElem _ _ hjlt] at this
      exact beq_eq_false_iff_ne.mpr this

theorem getLastD_mem {α : Type} : ∀ (l : List α) (a : α), l.getLastD a ∈ a :: l := by
  intro l
  induction l with
  | nil => intro a; simp
  | cons b l ih =>
    intro a
    rw [List.getLastD_cons]
    rcases List.mem_cons.mp (ih b) with h | h
    · rw [h]; exact List.mem_cons_of_mem _ (List.mem_cons_self _ _)
    · exact List.mem_cons_of_mem _ (List.mem_cons_of_mem _ h)

theorem mem_le_getLastD : ∀ (l : List Nat), l.Pairwise (· < ·) →
    ∀ x ∈ l, ∀ a : Nat, x ≤ l.getLastD a := by
  intro l
  induction l with
  | nil => intro _ x hx; simp at hx
  | cons b t ih =>
    intro hp x hx a
    rw [List.getLastD_cons]
    rcases List.mem_cons.mp hx with hx | hx
    · subst hx
      rcases List.mem_cons.mp (getLastD_mem t x) with h | h
      · exact le_of_eq h.symm
      · exact le_of_lt (List.rel_of_pairwise_cons hp h)
    · exact ih (List.Pairwise.sublist (List.sublist_cons_self b t) hp) x hx b

theorem mem_diveIdx {dvals : List ℚ} {d : ℚ} {i : Nat} :
    i ∈ (List.range dvals.length).filter (fun i => dvals.getD i 0 == d) ↔
      i < dvals.length ∧ dvals.getD i 0 = d := by
  simp [List.mem_filter, List.mem_range]

theorem diveIdx_pairwise (dvals : List ℚ) (d : ℚ) :
    ((List.range dvals.length).filter (fun i => dvals.getD i 0 == d)).Pairwise (· < ·) :=
  List.Pairwise.sublist (List.filter_sublist _) (List.pairwise_lt_range _)

theorem diveRange_isSome_of_mem {dvals : List ℚ} {d : ℚ} (h : d ∈ dvals) :
    (diveRange dvals d).isSome = true := by
  obtain ⟨i, hi, he⟩ := List.mem_iff_getElem.mp h
  have hmem : i ∈ (List.range dvals.length).filter (fun i => dvals.getD i 0 == d) :=
    mem_diveIdx.mpr ⟨hi, by rw [List.getD_eq_getElem _ _ hi, he]⟩
  rcases hF : (List.range dvals.length).filter (fun i => dvals.getD i 0 == d) with _ | ⟨a, t⟩
  · rw [hF] at hmem; simp at hmem
  · rw [diveRange, hF]; rfl

theorem diveRange_spec {dvals : List ℚ} {d : ℚ} {s e : Nat}
    (h : diveRange dvals d = some (s, e)) :
    s ≤ e ∧ e < dvals.length ∧ dvals.getD s 0 = d ∧ dvals.getD e 0 = d ∧
      (∀ i < dvals.length, dvals.getD i 0 = d → s ≤ i ∧ i ≤ e) := by
  rcases hF : (List.range dvals.length).filter (fun i => dvals.getD i 0 == d) with _ | ⟨a, t⟩
  · rw [diveRange, hF] at h; exact Option.noConfusion h
  · rw [diveRange, hF] at h
    simp only [Option.some.injEq, Prod.mk.injEq] at h
    obtain ⟨hs, he⟩ := h
    have hF2 : (List.range dvals.length).filter (fun i => dvals.getD i 0 == d) = s :: t := by
      rw [hF, hs]
    have he2 : (s :: t).getLastD s = e := by rw [← hs]; exact he
    have hsorted : (s :: t).Pairwise (· < ·) := hF2 ▸ diveIdx_pairwise dvals d
    have hemem : e ∈ s :: t := by
      rw [← he2, List.getLastD_cons]
      exact getLastD_mem t s
    have hglb : ∀ x ∈ s :: t, s ≤ x := by
      intro x hx
      rcases List.mem_cons.mp hx with hx | hx
      · exact le_of_eq hx.symm
      · exact le_of_lt (List.rel_of_pairwise_cons hsorted hx)
    have hlub : ∀ x ∈ s :: t, x ≤ e := by
      intro x hx
      rw [← he2]
      exact mem_le_getLastD (s :: t) hsorted x hx s
    have hprop : ∀ i, i ∈ s :: t ↔ i < dvals.length ∧ dvals.getD i 0 = d := by
      intro i
      rw [← hF2]
      exact mem_diveIdx
    have hse : s ∈ s :: t := List.mem_cons_self _ _
    refine ⟨hlub s hse, ((hprop e).mp hemem).1, ((hprop s).mp hse).2,
      ((hprop e).mp hemem).2, ?_⟩
    intro i hi hd
    have : i ∈ s :: t := (hprop i).mpr ⟨hi, hd⟩
    exact ⟨hglb i this, hlub i this⟩

theorem mem_of_diveRange {dvals : List ℚ} {d : ℚ} {s e : Nat}
    (h : diveRange dvals d = some (s, e)) : d ∈ dvals := by
  obtain ⟨hse, hen, hs, _, _⟩ := diveRange_spec h
  have hsn : s < dvals.length := lt_of_le_of_lt hse hen
  rw [List.getD_eq_getElem _ _ hsn] at hs
  exact hs ▸ List.getElem_mem hsn

theorem blocks_disjoint {dvals : List ℚ} (hctg : Contiguous dvals)
    {d d' : ℚ} {s e s' e' : Nat} (hne : d ≠ d')
    (h1 : diveRange dvals d = some (s, e)) (h2 : diveRange dvals d' = some (s', e')) :
    e < s' ∨ e' < s := by
  by_contra hc
  push_neg at hc
  obtain ⟨hc1, hc2⟩ := hc
  obtain ⟨hse, hen, hds, hde, _⟩ := diveRange_spec h1
  obtain ⟨hse2, hen2, hds2, hde2, _⟩ := diveRange_spec h2
  set i := max s s' with hi
  have hi1 : s ≤ i := le_max_left _ _
  have hi2 : s' ≤ i := le_max_right _ _
  have hie : i ≤ e := max_le hse hc1
  have hie2 : i ≤ e' := max_le hc2 hse2
  have hin : i < dvals.length := lt_of_le_of_lt hie hen
  have hgi : dvals.getD i 0 = d := by
    have := hctg s (lt_of_le_of_lt hse hen) i hin e hen hi1 hie (hds.trans hde.symm)
    rw [this, hde]
  have hgi2 : dvals.getD i 0 = d' := by
    have := hctg s' (lt_of_le_of_lt hse2 hen2) i hin e' hen2 hi2 hie2 (hds2.trans hde2.symm)
    rw [this, hde2]
  exact hne (hgi ▸ hgi2)

theorem lt_length_of_isSome {xs : List Val} {j : Nat}
    (h : (xs.getD j none).isSome = true) : j < xs.length := by
  by_contra hn
  rw [List.getD_eq_default _ _ (not_lt.mp hn)] at h
  simp at h

theorem firstTwoValid_of_spec {xs : List Val} {r0 r1 : Nat}
    (h : FirstTwoValid xs r0 r1) : firstTwoValid xs = some (r0, r1) := by
  obtain ⟨h01, hv0, hv1, hlt0, hgap⟩ := h
  have hmem : ∀ i, i ∈ (List.range xs.length).filter (fun j => (xs.getD j none).isSome) ↔
      (xs.getD i none).isSome = true := by
    intro i
    simp only [List.mem_filter, List.mem_range]
    constructor
    · exact fun h => h.2
    · exact fun h => ⟨lt_length_of_isSome h, h⟩
  have hsorted : ((List.range xs.length).filter
      (fun j => (xs.getD j none).isSome)).Pairwise (· < ·) :=
    List.Pairwise.sublist (List.filter_sublist _) (List.pairwise_lt_range _)
  rcases hF : (List.range xs.length).filter (fun j => (xs.getD j none).isSome)
    with _ | ⟨a, t⟩
  · have := (hmem r0).mpr hv0
    rw [hF] at this
    simp at this
  · rw [hF] at hsorted
    have hmem0 : r0 ∈ a :: t := by rw [← hF]; exact (hmem r0).mpr hv0
    have hmem1 : r1 ∈ a :: t := by rw [← hF]; exact (hmem r1).mpr hv1
    have hva : (xs.getD a none).isSome = true := by
      rw [← hmem a, hF]; exact List.mem_cons_self _ _
    have ha : a = r0 := by
      rcases List.mem_cons.mp hmem0 with h | h
      · exact h.symm
      · exfalso
        have halt : a < r0 := List.rel_of_pairwise_cons hsorted h
        rw [hlt0 a halt] at hva
        exact Bool.noConfusion hva
    subst ha
    have hmem1t : r1 ∈ t := by
      rcases List.mem_cons.mp hmem1 with h | h
      · exact absurd h.symm (ne_of_lt h01)
      · exact h
    rcases ht : t with _ | ⟨b, t2⟩
    · rw [ht] at hmem1t; simp at hmem1t
    · rw [ht] at hmem1t hsorted
      have hvb : (xs.getD b none).isSome = true := by
        rw [← hmem b, hF, ht]
        exact List.mem_cons_of_mem _ (List.mem_cons_self _ _)
      have hab : a < b := List.rel_of_pairwise_cons hsorted (List.mem_cons_self _ _)
      have hb : b = r1 := by
        rcases List.mem_cons.mp hmem1t with h | h
        · exact h.symm
        · have hblt : b < r1 :=
            List.rel_of_pairwise_cons
              (List.Pairwise.sublist (List.sublist_cons_self a (b :: t2)) hsorted) h
          exfalso
          rw [hgap b hblt hab] at hvb
          exact Bool.noConfusion hvb
      subst hb
      rw [firstTwoValid, hF, ht]

theorem firstTwoValid_none_spec {xs : List Val} (h : firstTwoValid xs = none) :
    ∀ r0 r1, r0 < r1 → ¬((xs.getD r0 none).isSome = true ∧ (xs.getD r1 none).isSome = true) := by
  intro r0 r1 h01 ⟨hv0, hv1⟩
  have hmem : ∀ i, (xs.getD i none).isSome = true →
      i ∈ (List.range xs.length).filter (fun j => (xs.getD j none).isSome) := by
    intro i hi
    simp only [List.mem_filter, List.mem_range]
    exact ⟨lt_length_of_isSome hi, hi⟩
  rcases hF : (List.range xs.length).filter (fun j => (xs.getD j none).isSome)
    with _ | ⟨a, t⟩
  · have := hmem r0 hv0
    rw [hF] at this
    simp at this
  · rcases ht : t with _ | ⟨b, t2⟩
    · have h0 := hmem r0 hv0
      have h1 := hmem r1 hv1
      rw [hF, ht] at h0 h1
      simp only [List.mem_singleton] at h0 h1
      exact absurd (h0.trans h1.symm) (ne_of_lt h01)
    · rw [firstTwoValid, hF, ht] at h
      exact Option.noConfusion h

/-!
Step lemmas for `assign_profile_number`.
-/

theorem slice_length_le (xs : List Val) (s e : Nat) : (slice xs s e).length ≤ e + 1 - s := by
  simp only [slice, List.length_take, List.length_drop]
  exact min_le_left _ _

theorem pmaxIndexRel_lt_length {xs : List Val} (h : xs ≠ []) :
    pmaxIndexRel xs < xs.length := by
  rcases hm : nanMax xs with _ | p
  · rw [pmaxIndexRel, hm]
    exact List.length_pos.mpr h
  · rw [pmaxIndexRel, hm]
    refine List.findIdx_lt_length_of_exists ⟨some p, nanMax_mem xs p hm, ?_⟩
    simp

theorem pidx_le {xs : List Val} {s e : Nat} (hse : s ≤ e) :
    s + pmaxIndexRel (slice xs s e) ≤ e := by
  rcases eq_or_ne (slice xs s e) [] with h | h
  · rw [h]
    simpa [pmaxIndexRel, nanMax] using hse
  · have h1 := pmaxIndexRel_lt_length h
    have h2 := slice_length_le xs s e
    omega

/-- The invariant re-established by every loop iteration:
`PROFILE_NUMBER = 2 * dive_num_cast - 1`, with fresh (empty) attributes. -/
def PNlinked (ds : DSet) : Prop :=
  lookupVar ds "PROFILE_NUMBER" =
    (lookupVar ds "dive_num_cast").map
      (fun v => ⟨v.values.map (Option.map (fun q => qsub (qmul 2 q) 1)), []⟩)

theorem profileStep_cases {dvals : List ℚ} {ds out : DSet} {d : ℚ}
    (h : profileStep dvals ds d = some out) :
    (diveRange dvals d = none ∧ out = ds) ∨
    (∃ s e presVar dnc v2, diveRange dvals d = some (s, e) ∧
      lookupVar ds "PRES" = some presVar ∧
      lookupVar ds "dive_num_cast" = some dnc ∧
      v2 = setRange (setRange dnc.values s
          (s + pmaxIndexRel (slice presVar.values s e)) (some d))
        (s + pmaxIndexRel (slice presVar.values s e) + 1) e
        (some (qadd d (Rat.divInt 1 2))) ∧
      out = setVar
        (dropVar (setVar ds "dive_num_cast" (Var.mk v2 dnc.attrs)) "PROFILE_NUMBER")
        "PROFILE_NUMBER"
        (Var.mk (v2.map (Option.map (fun q => qsub (qmul 2 q) 1))) [])) := by
  rcases hr : diveRange dvals d with _ | ⟨s, e⟩
  · left
    rw [profileStep, hr] at h
    simp only [Option.some.injEq] at h
    exact ⟨rfl, h.symm⟩
  · right
    rw [profileStep, hr] at h
    rcases hp : lookupVar ds "PRES" with _ | presVar
    · rw [hp] at h; exact Option.noConfusion h
    rcases hd : lookupVar ds "dive_num_cast" with _ | dnc
    · rw [hp, hd] at h; exact Option.noConfusion h
    rw [hp, hd] at h
    simp only [Option.some.injEq] at h
    exact ⟨s, e, presVar, dnc, _, rfl, rfl, rfl, rfl, h.symm⟩

theorem profileStep_lookup_other {dvals : List ℚ} {ds out : DSet} {d : ℚ}
    (h : profileStep dvals ds d = some out) (m : String)
    (hm1 : m ≠ "dive_num_cast") (hm2 : m ≠ "PROFILE_NUMBER") :
    lookupVar out m = lookupVar ds m := by
  rcases profileStep_cases h with ⟨_, rfl⟩ | ⟨s, e, pv, dnc, v2, hr, hp, hd, hv2, rfl⟩
  · rfl
  · rw [lookupVar_setVar, if_neg hm2, lookupVar_dropVar, if_neg hm2,
      lookupVar_setVar, if_neg hm1]

theorem profileStep_dnc {dvals : List ℚ} {ds out : DSet} {d : ℚ}
    (h : profileStep dvals ds d = some out) (dnc : Var)
    (hd : lookupVar ds "dive_num_cast" = some dnc) :
    ∃ w : Var, lookupVar out "dive_num_cast" = some w ∧
      w.values.length = dnc.values.length ∧ w.attrs = dnc.attrs := by
  rcases profileStep_cases h with ⟨_, rfl⟩ | ⟨s, e, pv, dnc2, v2, hr, hp, hd2, hv2, rfl⟩
  · exact ⟨dnc, hd, rfl, rfl⟩
  · rw [hd] at hd2
    cases hd2
    refine ⟨Var.mk v2 dnc.attrs, ?_, ?_, rfl⟩
    · rw [lookupVar_setVar, if_neg (by decide), lookupVar_dropVar, if_neg (by decide),
        lookupVar_setVar, if_pos rfl]
    · show v2.length = dnc.values.length
      rw [hv2, length_setRange, length_setRange]

theorem profileStep_frame {dvals : List ℚ} {ds out : DSet} {d : ℚ} {s e : Nat}
    (h : profileStep dvals ds d = some out) (hr : diveRange dvals d = some (s, e))
    (i : Nat) (hi : i < s ∨ e < i) :
    getVal out "dive_num_cast" i = getVal ds "dive_num_cast" i := by
  rcases profileStep_cases h with ⟨hn, rfl⟩ | ⟨s2, e2, pv, dnc, v2, hr2, hp, hd, hv2, rfl⟩
  · rfl
  · rw [hr] at hr2
    simp only [Option.some.injEq, Prod.mk.injEq] at hr2
    obtain ⟨h1, h2⟩ := hr2
    subst h1
    subst h2
    subst hv2
    have hse : s ≤ e := (diveRange_spec hr).1
    have hpe : s + pmaxIndexRel (slice pv.values s e) ≤ e := pidx_le hse
    rw [getVal, lookupVar_setVar, if_neg (by decide), lookupVar_dropVar,
      if_neg (by decide), lookupVar_setVar, if_pos rfl, getVal, hd]
    dsimp only
    rw [getD_setRange, getD_setRange]
    rw [if_neg, if_neg]
    · rintro ⟨ha, hb, _⟩
      rcases hi with hi | hi <;> omega
    · rintro ⟨ha, hb, _⟩
      rcases hi with hi | hi <;> omega

theorem profileStep_effect {dvals : List ℚ} {ds out : DSet} {d : ℚ} {s e : Nat}
    {presVar dnc : Var}
    (h : profileStep dvals ds d = some out) (hr : diveRange dvals d = some (s, e))
    (hp : lookupVar ds "PRES" = some presVar)
    (hd : lookupVar ds "dive_num_cast" = some dnc)
    (i : Nat) (hsi : s ≤ i) (hie : i ≤ e) (hlen : i < dnc.values.length) :
    getVal out "dive_num_cast" i =
      if i ≤ s + pmaxIndexRel (slice presVar.values s e) then some d
      else some (qadd d (Rat.divInt 1 2)) := by
  rcases profileStep_cases h with ⟨hn, _⟩ | ⟨s2, e2, pv, dnc2, v2, hr2, hp2, hd2, hv2, rfl⟩
  · rw [hr] at hn; exact Option.noConfusion hn
  · rw [hr] at hr2
    simp only [Option.some.injEq, Prod.mk.injEq] at hr2
    obtain ⟨h1, h2⟩ := hr2
    subst h1
    subst h2
    rw [hp] at hp2
    cases hp2
    rw [hd] at hd2
    cases hd2
    subst hv2
    rw [getVal, lookupVar_setVar, if_neg (by decide), lookupVar_dropVar,
      if_neg (by decide), lookupVar_setVar, if_pos rfl]
    dsimp only
    rw [getD_setRange, getD_setRange, length_setRange]
    by_cases hc : i ≤ s + pmaxIndexRel (slice presVar.values s e)
    · rw [if_neg (by omega), if_pos ⟨hsi, hc, hlen⟩, if_pos hc]
    · rw [if_pos ⟨by omega, hie, hlen⟩, if_neg hc]

theorem profileStep_PN {dvals : List ℚ} {ds out : DSet} {d : ℚ} {s e : Nat}
    (h : profileStep dvals ds d = some out) (hr : diveRange dvals d = some (s, e)) :
    PNlinked out := by
  rcases profileStep_cases h with ⟨hn, _⟩ | ⟨s2, e2, pv, dnc, v2, hr2, hp, hd, hv2, rfl⟩
  · rw [hr] at hn; exact Option.noConfusion hn
  · rw [PNlinked, lookupVar_setVar, if_pos rfl, lookupVar_setVar, if_neg (by decide),
      lookupVar_dropVar, if_neg (by decide), lookupVar_setVar, if_pos rfl]
    rfl

/-- Accumulated behaviour of the `assign_profile_number` loop over a list of
dive numbers with pairwise-disjoint index blocks. -/
theorem foldProfile_spec (dvals : List ℚ) :
    ∀ (L : List ℚ) (ds out : DSet),
    L.foldlM (profileStep dvals) ds = some out →
    (∀ x ∈ L, (diveRange dvals x).isSome = true) →
    L.Nodup →
    (∀ x ∈ L, ∀ y ∈ L, x ≠ y → ∀ s e s2 e2, diveRange dvals x = some (s, e) →
      diveRange dvals y = some (s2, e2) → e < s2 ∨ e2 < s) →
    (∀ m, m ≠ "dive_num_cast" → m ≠ "PROFILE_NUMBER" → lookupVar out m = lookupVar ds m) ∧
    (∀ dnc : Var, lookupVar ds "dive_num_cast" = some dnc →
      ∃ w : Var, lookupVar out "dive_num_cast" = some w ∧
        w.values.length = dnc.values.length ∧ w.attrs = dnc.attrs) ∧
    (∀ i, (∀ x ∈ L, ∀ s e, diveRange dvals x = some (s, e) → i < s ∨ e < i) →
      getVal out "dive_num_cast" i = getVal ds "dive_num_cast" i) ∧
    (∀ d ∈ L, ∀ s e, diveRange dvals d = some (s, e) →
      ∀ presVar, lookupVar ds "PRES" = some presVar →
      ∀ dnc, lookupVar ds "dive_num_cast" = some dnc →
      ∀ i, s ≤ i → i ≤ e → i < dnc.values.length →
      getVal out "dive_num_cast" i =
        if i ≤ s + pmaxIndexRel (slice presVar.values s e) then some d
        else some (qadd d (Rat.divInt 1 2))) ∧
    (L ≠ [] → PNlinked out) := by
  intro L
  induction L with
  | nil =>
    intro ds out hfold _ _ _
    rw [List.foldlM_nil] at hfold
    obtain rfl : ds = out := by simpa using hfold
    refine ⟨fun m _ _ => rfl, fun dnc h => ⟨dnc, h, rfl, rfl⟩, fun i _ => rfl, ?_, ?_⟩
    · intro d hd
      exact absurd hd (List.not_mem_nil d)
    · intro h
      exact absurd rfl h
  | cons x rest ih =>
    intro ds out hfold hsome hnd hdisj
    rw [List.foldlM_cons] at hfold
    rcases hstep : profileStep dvals ds x with _ | ds1
    · rw [hstep] at hfold
      simp at hfold
    · rw [hstep] at hfold
      replace hfold : List.foldlM (profileStep dvals) ds1 rest = some out := hfold
      obtain ⟨⟨sx, ex⟩, hrx⟩ :=
        Option.isSome_iff_exists.mp (hsome x (List.mem_cons_self _ _))
      have hxnot : x ∉ rest := (List.nodup_cons.mp hnd).1
      obtain ⟨ih1, ih2, ih3, ih4, ih5⟩ :=
        ih ds1 out hfold (fun y hy => hsome y (List.mem_cons_of_mem _ hy))
          (List.Nodup.of_cons hnd)
          (fun a ha b hb hab => hdisj a (List.mem_cons_of_mem _ ha) b
            (List.mem_cons_of_mem _ hb) hab)
      refine ⟨?_, ?_, ?_, ?_, ?_⟩
      · intro m hm1 hm2
        rw [ih1 m hm1 hm2, profileStep_lookup_other hstep m hm1 hm2]
      · intro dnc hdnc
        obtain ⟨w1, hw1, hl1, ha1⟩ := profileStep_dnc hstep dnc hdnc
        obtain ⟨w2, hw2, hl2, ha2⟩ := ih2 w1 hw1
        exact ⟨w2, hw2, hl2.trans hl1, ha2.trans ha1⟩
      · intro i hi
        rw [ih3 i (fun y hy => hi y (List.mem_cons_of_mem _ hy)),
          profileStep_frame hstep hrx i (hi x (List.mem_cons_self _ _) sx ex hrx)]
      · intro d hd s e hr presVar hp dnc hdnc i hsi hie hlen
        rcases List.mem_cons.mp hd with rfl | hd
        · have heff := profileStep_effect hstep hr hp hdnc i hsi hie hlen
          have havoid : ∀ y ∈ rest, ∀ s2 e2, diveRange dvals y = some (s2, e2) →
              i < s2 ∨ e2 < i := by
            intro y hy s2 e2 hry
            have hne : d ≠ y := fun hxy => hxnot (hxy ▸ hy)
            rcases hdisj d (List.mem_cons_self _ _) y (List.mem_cons_of_mem _ hy)
              hne s e s2 e2 hr hry with hc | hc
            · left
              omega
            · right
              omega
          rw [ih3 i havoid, heff]
        · have hp1 : lookupVar ds1 "PRES" = some presVar := by
            rw [profileStep_lookup_other hstep "PRES" (by decide) (by decide), hp]
          obtain ⟨w, hw, hlw, _⟩ := profileStep_dnc hstep dnc hdnc
          exact ih4 d hd s e hr presVar hp1 w hw i hsi hie (by rw [hlw]; exact hlen)
      · intro _
        rcases hrest : rest with _ | ⟨y, t⟩
        · rw [hrest] at hfold
          rw [List.foldlM_nil] at hfold
          obtain rfl : ds1 = out := by simpa using hfold
          exact profileStep_PN hstep hrx
        · exact ih5 (by rw [hrest]; exact List.cons_ne_nil _ _)

theorem mem_uniqueSorted (xs : List ℚ) (d : ℚ) : d ∈ uniqueSorted xs ↔ d ∈ xs := by
  rw [uniqueSorted, List.mem_dedup, mem_sortLe]

/-- C1 (amended: dives occupy contiguous index blocks). For a dive number `d`
with index range `[s, e]` whose pressure slice has its first NaN-ignoring
maximum at relative index `ridx`, `assign_profile_number` returns
`dive_num_cast = d` on `[s, s + ridx]`, `dive_num_cast = d + 0.5` on
`(s + ridx, e]`, and `PROFILE_NUMBER = 2 * dive_num_cast - 1` on the whole
dive. -/
theorem assign_profile_number_spec
    (ds out : DSet) (divenumStr : String) (dv presVar : Var) (dvals : List ℚ)
    (d p : ℚ) (s e ridx : Nat)
    (hstr1 : divenumStr ≠ "dive_num_cast")
    (hdv : lookupVar ds divenumStr = some dv)
    (hvals : allSome dv.values = some dvals)
    (hlen : dvals.length = ds.len)
    (hctg : Contiguous dvals)
    (hpres : lookupVar ds "PRES" = some presVar)
    (hrun : assign_profile_number ds divenumStr = some out)
    (hrange : diveRange dvals d = some (s, e))
    (hmax : IsFirstNanMax (slice presVar.values s e) ridx p) :
    (∀ i, s ≤ i → i ≤ s + ridx → getVal out "dive_num_cast" i = some d) ∧
    (∀ i, s + ridx < i → i ≤ e → getVal out "dive_num_cast" i = some (d + 1/2)) ∧
    (∀ i, s ≤ i → i ≤ e →
      getVal out "PROFILE_NUMBER" i =
        (getVal out "dive_num_cast" i).map (fun q => 2 * q - 1)) := by
  have hds1 : lookupVar (setVar (dropVar ds "dive_num_cast") "dive_num_cast"
      ⟨List.replicate ds.len none, []⟩) divenumStr = some dv := by
    rw [lookupVar_setVar, if_neg hstr1, lookupVar_dropVar, if_neg hstr1, hdv]
  rw [assign_profile_number, hds1] at hrun
  simp only [Option.bind_eq_bind, Option.some_bind] at hrun
  rw [hvals] at hrun
  simp only [Option.some_bind] at hrun
  have hp1 : lookupVar (setVar (dropVar ds "dive_num_cast") "dive_num_cast"
      ⟨List.replicate ds.len none, []⟩) "PRES" = some presVar := by
    rw [lookupVar_setVar, if_neg (by decide), lookupVar_dropVar, if_neg (by decide), hpres]
  have hd1 : lookupVar (setVar (dropVar ds "dive_num_cast") "dive_num_cast"
      ⟨List.replicate ds.len none, []⟩) "dive_num_cast" =
      some ⟨List.replicate ds.len none, []⟩ := by
    rw [lookupVar_setVar, if_pos rfl]
  have hmemd : d ∈ uniqueSorted dvals := (mem_uniqueSorted dvals d).mpr (mem_of_diveRange hrange)
  obtain ⟨f1, f2, f3, f4, f5⟩ := foldProfile_spec dvals (uniqueSorted dvals) _ out hrun
    (fun x hx => diveRange_isSome_of_mem ((mem_uniqueSorted dvals x).mp hx))
    (List.nodup_dedup _)
    (fun a ha b hb hab s1 e1 s2 e2 h1 h2 => blocks_disjoint hctg hab h1 h2)
  have hework := diveRange_spec hrange
  have hrelx : pmaxIndexRel (slice presVar.values s e) = ridx := pmaxIndexRel_eq hmax
  have heff : ∀ i, s ≤ i → i ≤ e →
      getVal out "dive_num_cast" i = if i ≤ s + ridx then some d else some (qadd d (Rat.divInt 1 2)) := by
    intro i hsi hie
    have hibound : i < (List.replicate ds.len (none : Val)).length := by
      rw [List.length_replicate]
      omega
    have := f4 d hmemd s e hrange presVar hp1 ⟨List.replicate ds.len none, []⟩ hd1
      i hsi hie hibound
    rwa [hrelx] at this
  have hridx_le : s + ridx ≤ e := by
    have := pmaxIndexRel_eq hmax
    have h1 := @pidx_le presVar.values s e hework.1
    omega
  refine ⟨?_, ?_, ?_⟩
  · intro i hsi hie
    rw [heff i hsi (le_trans hie hridx_le), if_pos hie]
  · intro i hgt hie
    rw [heff i (by omega) hie, if_neg (by omega), qadd_half]
  · intro i hsi hie
    have hpn : PNlinked out := f5 (List.ne_nil_of_mem hmemd)
    obtain ⟨w, hw, hwl, hwa⟩ := f2 ⟨List.replicate ds.len none, []⟩ hd1
    rw [PNlinked, hw] at hpn
    rw [getVal, hpn, getVal, hw, Option.map_some']
    dsimp only
    rw [getD_map_optionMap, qlin_eq]

/-- Measurement stream used as the C1 witness: the two-dive example from the
specification (dive numbers `[1,1,1,2,2,2,2]`, pressures `[10,20,30,10,20,30,40]`). -/
def dsC1w : DSet :=
  ⟨7, [("PRES", ⟨[some 10, some 20, some 30, some 10, some 20, some 30, some 40], []⟩),
       ("divenum", ⟨[some 1, some 1, some 1, some 2, some 2, some 2, some 2], []⟩)]⟩

/-- Output of `assign_profile_number` on `dsC1w`. -/
def dsC1run : DSet := (assign_profile_number dsC1w "divenum").getD ⟨0, []⟩

theorem assign_profile_number_spec_witness :
    getVal dsC1run "dive_num_cast" 4 = some 2 :=
  (assign_profile_number_spec dsC1w dsC1run "divenum"
    ⟨[some 1, some 1, some 1, some 2, some 2, some 2, some 2], []⟩
    ⟨[some 10, some 20, some 30, some 10, some 20, some 30, some 40], []⟩
    [1, 1, 1, 2, 2, 2, 2] 2 40 3 6 3 (by decide) (by decide) (by decide) (by decide)
    (by decide) (by decide) (by decide) (by decide) (by decide)).1 4 (by decide) (by decide)

/-!
Step and fold lemmas for `assign_phase`.
-/

/-- Final PHASE value the loop body writes at index `i` of the dive `[s, e]`:
phase 3 between the first two valid GPS fixes, else phase 2 up to the pressure
maximum and phase 1 after it. -/
def phaseFormula (presVals tgVals : List Val) (s e i : Nat) : Val :=
  match firstTwoValid (slice tgVals s e) with
  | some (r0, r1) =>
    if s + r0 ≤ i ∧ i ≤ s + r1 then some 3
    else if i ≤ s + pmaxIndexRel (slice presVals s e) then some 2 else some 1
  | none => if i ≤ s + pmaxIndexRel (slice presVals s e) then some 2 else some 1

theorem firstTwoValid_some_spec {xs : List Val} {r0 r1 : Nat}
    (h : firstTwoValid xs = some (r0, r1)) : FirstTwoValid xs r0 r1 := by
  rcases hF : (List.range xs.length).filter (fun j => (xs.getD j none).isSome)
    with _ | ⟨a, t⟩
  · rw [firstTwoValid, hF] at h
    exact Option.noConfusion h
  rcases ht : t with _ | ⟨b, t2⟩
  · rw [firstTwoValid, hF, ht] at h
    exact Option.noConfusion h
  rw [firstTwoValid, hF, ht] at h
  simp only [Option.some.injEq, Prod.mk.injEq] at h
  obtain ⟨h0, h1⟩ := h
  have hmem : ∀ i, i ∈ a :: b :: t2 ↔ (xs.getD i none).isSome = true := by
    intro i
    rw [← ht, ← hF]
    simp only [List.mem_filter, List.mem_range]
    constructor
    · exact fun hh => hh.2
    · exact fun hh => ⟨lt_length_of_isSome hh, hh⟩
  have hsorted : (a :: b :: t2).Pairwise (· < ·) := by
    rw [← ht, ← hF]
    exact List.Pairwise.sublist (List.filter_sublist _) (List.pairwise_lt_range _)
  rw [← h0, ← h1]
  refine ⟨List.rel_of_pairwise_cons hsorted (List.mem_cons_self _ _),
    (hmem a).mp (List.mem_cons_self _ _),
    (hmem b).mp (List.mem_cons_of_mem _ (List.mem_cons_self _ _)), ?_, ?_⟩
  · intro j hj
    by_contra hv
    rw [Bool.not_eq_false] at hv
    have hjm : j ∈ a :: b :: t2 := (hmem j).mpr hv
    rcases List.mem_cons.mp hjm with rfl | hjm
    · omega
    · have := List.rel_of_pairwise_cons hsorted hjm
      omega
  · intro j hj1 hj0
    by_contra hv
    rw [Bool.not_eq_false] at hv
    have hjm : j ∈ a :: b :: t2 := (hmem j).mpr hv
    rcases List.mem_cons.mp hjm with rfl | hjm
    · omega
    · rcases List.mem_cons.mp hjm with rfl | hjm
      · omega
      · have := List.rel_of_pairwise_cons (List.Pairwise.sublist
          (List.sublist_cons_self a (b :: t2)) hsorted) hjm
        omega

theorem gps_window_le {xs : List Val} {s e r0 r1 : Nat}
    (h : firstTwoValid (slice xs s e) = some (r0, r1)) : r0 < r1 ∧ s + r1 ≤ e := by
  obtain ⟨h01, _, hv1, _, _⟩ := firstTwoValid_some_spec h
  have hlt : r1 < (slice xs s e).length := lt_length_of_isSome hv1
  have := slice_length_le xs s e
  exact ⟨h01, by omega⟩

theorem phaseStep_cases {dvals : List ℚ} {ds out : DSet} {d : ℚ}
    (h : phaseStep dvals ds d = some out) :
    (diveRange dvals d = none ∧ out = ds) ∨
    (∃ s e presVar ph tg p1 p2,
      diveRange dvals d = some (s, e) ∧
      lookupVar ds "PRES" = some presVar ∧
      lookupVar ds "PHASE" = some ph ∧
      lookupVar ds "TIME_GPS" = some tg ∧
      p1 = setRange (setRange ph.values s
          (s + pmaxIndexRel (slice presVar.values s e)) (some 2))
        (s + pmaxIndexRel (slice presVar.values s e) + 1) e (some 1) ∧
      ((firstTwoValid (slice tg.values s e) = none ∧ p2 = p1) ∨
        (∃ r0 r1, firstTwoValid (slice tg.values s e) = some (r0, r1) ∧
          p2 = setRange p1 (s + r0) (s + r1) (some 3))) ∧
      out = setVar ds "PHASE" (Var.mk p2 ph.attrs)) := by
  rcases hr : diveRange dvals d with _ | ⟨s, e⟩
  · left
    rw [phaseStep, hr] at h
    simp only [Option.some.injEq] at h
    exact ⟨rfl, h.symm⟩
  · right
    rw [phaseStep, hr] at h
    rcases hp : lookupVar ds "PRES" with _ | presVar
    · rw [hp] at h; exact Option.noConfusion h
    rcases hph : lookupVar ds "PHASE" with _ | ph
    · rw [hp, hph] at h; exact Option.noConfusion h
    rcases htg : lookupVar ds "TIME_GPS" with _ | tg
    · rw [hp, hph, htg] at h; exact Option.noConfusion h
    rw [hp, hph, htg] at h
    simp only [Option.some.injEq] at h
    rcases hft : firstTwoValid (slice tg.values s e) with _ | ⟨r0, r1⟩
    · rw [hft] at h
      exact ⟨s, e, presVar, ph, tg, _, _, rfl, rfl, rfl, rfl, rfl,
        Or.inl ⟨hft, rfl⟩, h.symm⟩
    · rw [hft] at h
      exact ⟨s, e, presVar, ph, tg, _, _, rfl, rfl, rfl, rfl, rfl,
        Or.inr ⟨r0, r1, hft, rfl⟩, h.symm⟩

theorem phaseStep_lookup_other {dvals : List ℚ} {ds out : DSet} {d : ℚ}
    (h : phaseStep dvals ds d = some out) (m : String) (hm : m ≠ "PHASE") :
    lookupVar out m = lookupVar ds m := by
  rcases phaseStep_cases h with ⟨_, rfl⟩ | ⟨s, e, pv, ph, tg, p1, p2, hr, hp, hph, htg, hp1, hp2, rfl⟩
  · rfl
  · rw [lookupVar_setVar, if_neg hm]

theorem phaseStep_ph {dvals : List ℚ} {ds out : DSet} {d : ℚ}
    (h : phaseStep dvals ds d = some out) (ph : Var)
    (hph : lookupVar ds "PHASE" = some ph) :
    ∃ w : Var, lookupVar out "PHASE" = some w ∧
      w.values.length = ph.values.length ∧ w.attrs = ph.attrs := by
  rcases phaseStep_cases h with ⟨_, rfl⟩ |
    ⟨s, e, pv, ph2, tg, p1, p2, hr, hp, hph2, htg, hp1, hp2, rfl⟩
  · exact ⟨ph, hph, rfl, rfl⟩
  · rw [hph] at hph2
    cases hph2
    refine ⟨Var.mk p2 ph.attrs, ?_, ?_, rfl⟩
    · rw [lookupVar_setVar, if_pos rfl]
    · show p2.length = ph.values.length
      rcases hp2 with ⟨_, rfl⟩ | ⟨r0, r1, _, rfl⟩ <;>
        rw [hp1] <;> simp [length_setRange]

theorem phaseStep_frame {dvals : List ℚ} {ds out : DSet} {d : ℚ} {s e : Nat}
    (h : phaseStep dvals ds d = some out) (hr : diveRange dvals d = some (s, e))
    (i : Nat) (hi : i < s ∨ e < i) :
    getVal out "PHASE" i = getVal ds "PHASE" i := by
  rcases phaseStep_cases h with ⟨hn, rfl⟩ |
    ⟨s2, e2, pv, ph, tg, p1, p2, hr2, hp, hph, htg, hp1, hp2, rfl⟩
  · rfl
  · rw [hr] at hr2
    simp only [Option.some.injEq, Prod.mk.injEq] at hr2
    obtain ⟨h1, h2⟩ := hr2
    subst h1
    subst h2
    have hse : s ≤ e := (diveRange_spec hr).1
    have hpe : s + pmaxIndexRel (slice pv.values s e) ≤ e := pidx_le hse
    have hp1v : ∀ j, j < s ∨ e < j → p1.getD j none = ph.values.getD j none := by
      intro j hj
      rw [hp1, getD_setRange, getD_setRange, if_neg, if_neg]
      · rintro ⟨ha, hb, _⟩
        rcases hj with hj | hj <;> omega
      · rintro ⟨ha, hb, _⟩
        rcases hj with hj | hj <;> omega
    rw [getVal, lookupVar_setVar, if_pos rfl, getVal, hph]
    dsimp only
    rcases hp2 with ⟨_, rfl⟩ | ⟨r0, r1, hft, rfl⟩
    · exact hp1v i hi
    · obtain ⟨h01, hwin⟩ := gps_window_le hft
      rw [getD_setRange, if_neg, hp1v i hi]
      rintro ⟨ha, hb, _⟩
      rcases hi with hi | hi <;> omega

theorem phaseStep_effect {dvals : List ℚ} {ds out : DSet} {d : ℚ} {s e : Nat}
    {presVar ph tg : Var}
    (h : phaseStep dvals ds d = some out) (hr : diveRange dvals d = some (s, e))
    (hp : lookupVar ds "PRES" = some presVar)
    (hph : lookupVar ds "PHASE" = some ph)
    (htg : lookupVar ds "TIME_GPS" = some tg)
    (i : Nat) (hsi : s ≤ i) (hie : i ≤ e) (hlen : i < ph.values.length) :
    getVal out "PHASE" i = phaseFormula presVar.values tg.values s e i := by
  rcases phaseStep_cases h with ⟨hn, _⟩ |
    ⟨s2, e2, pv, ph2, tg2, p1, p2, hr2, hp2, hph2, htg2, hp1, hp2d, rfl⟩
  · rw [hr] at hn; exact Option.noConfusion hn
  · rw [hr] at hr2
    simp only [Option.some.injEq, Prod.mk.injEq] at hr2
    obtain ⟨h1, h2⟩ := hr2
    subst h1
    subst h2
    rw [hp] at hp2
    cases hp2
    rw [hph] at hph2
    cases hph2
    rw [htg] at htg2
    cases htg2
    have hbase : p1.getD i none =
        if i ≤ s + pmaxIndexRel (slice presVar.values s e) then some 2 else some 1 := by
      rw [hp1, getD_setRange, getD_setRange, length_setRange]
      by_cases hc : i ≤ s + pmaxIndexRel (slice presVar.values s e)
      · rw [if_neg (by omega), if_pos ⟨hsi, hc, hlen⟩, if_pos hc]
      · rw [if_pos ⟨by omega, hie, hlen⟩, if_neg hc]
    rw [getVal, lookupVar_setVar, if_pos rfl]
    dsimp only
    rcases hp2d with ⟨hft, rfl⟩ | ⟨r0, r1, hft, rfl⟩
    · rw [phaseFormula, hft]
      exact hbase
    · have hlen1 : p1.length = ph.values.length := by
        rw [hp1]
        simp [length_setRange]
      rw [phaseFormula, hft]
      dsimp only
      rw [getD_setRange]
      by_cases hc : s + r0 ≤ i ∧ i ≤ s + r1
      · rw [if_pos ⟨hc.1, hc.2, by omega⟩, if_pos hc]
      · rw [if_neg (fun hcc => hc ⟨hcc.1, hcc.2.1⟩), if_neg hc]
        exact hbase

/-- Accumulated behaviour of the `assign_phase` loop over a list of dive
numbers with pairwise-disjoint index blocks. -/
theorem foldPhase_spec (dvals : List ℚ) :
    ∀ (L : List ℚ) (ds out : DSet),
    L.foldlM (phaseStep dvals) ds = some out →
    (∀ x ∈ L, (diveRange dvals x).isSome = true) →
    L.Nodup →
    (∀ x ∈ L, ∀ y ∈ L, x ≠ y → ∀ s e s2 e2, diveRange dvals x = some (s, e) →
      diveRange dvals y = some (s2, e2) → e < s2 ∨ e2 < s) →
    (∀ m, m ≠ "PHASE" → lookupVar out m = lookupVar ds m) ∧
    (∀ ph : Var, lookupVar ds "PHASE" = some ph →
      ∃ w : Var, lookupVar out "PHASE" = some w ∧
        w.values.length = ph.values.length ∧ w.attrs = ph.attrs) ∧
    (∀ i, (∀ x ∈ L, ∀ s e, diveRange dvals x = some (s, e) → i < s ∨ e < i) →
      getVal out "PHASE" i = getVal ds "PHASE" i) ∧
    (∀ d ∈ L, ∀ s e, diveRange dvals d = some (s, e) →
      ∀ presVar, lookupVar ds "PRES" = some presVar →
      ∀ ph, lookupVar ds "PHASE" = some ph →
      ∀ tg, lookupVar ds "TIME_GPS" = some tg →
      ∀ i, s ≤ i → i ≤ e → i < ph.values.length →
      getVal out "PHASE" i = phaseFormula presVar.values tg.values s e i) := by
  intro L
  induction L with
  | nil =>
    intro ds out hfold _ _ _
    rw [List.foldlM_nil] at hfold
    obtain rfl : ds = out := by simpa using hfold
    refine ⟨fun m _ => rfl, fun ph h => ⟨ph, h, rfl, rfl⟩, fun i _ => rfl, ?_⟩
    intro d hd
    exact absurd hd (List.not_mem_nil d)
  | cons x rest ih =>
    intro ds out hfold hsome hnd hdisj
    rw [List.foldlM_cons] at hfold
    rcases hstep : phaseStep dvals ds x with _ | ds1
    · rw [hstep] at hfold
      simp at hfold
    · rw [hstep] at hfold
      replace hfold : List.foldlM (phaseStep dvals) ds1 rest = some out := hfold
      obtain ⟨⟨sx, ex⟩, hrx⟩ :=
        Option.isSome_iff_exists.mp (hsome x (List.mem_cons_self _ _))
      have hxnot : x ∉ rest := (List.nodup_cons.mp hnd).1
      obtain ⟨ih1, ih2, ih3, ih4⟩ :=
        ih ds1 out hfold (fun y hy => hsome y (List.mem_cons_of_mem _ hy))
          (List.Nodup.of_cons hnd)
          (fun a ha b hb hab => hdisj a (List.mem_cons_of_mem _ ha) b
            (List.mem_cons_of_mem _ hb) hab)
      refine ⟨?_, ?_, ?_, ?_⟩
      · intro m hm
        rw [ih1 m hm, phaseStep_lookup_other hstep m hm]
      · intro ph hph
        obtain ⟨w1, hw1, hl1, ha1⟩ := phaseStep_ph hstep ph hph
        obtain ⟨w2, hw2, hl2, ha2⟩ := ih2 w1 hw1
        exact ⟨w2, hw2, hl2.trans hl1, ha2.trans ha1⟩
      · intro i hi
        rw [ih3 i (fun y hy => hi y (List.mem_cons_of_mem _ hy)),
          phaseStep_frame hstep hrx i (hi x (List.mem_cons_self _ _) sx ex hrx)]
      · intro d hd s e hr presVar hp ph hph tg htg i hsi hie hlen
        rcases List.mem_cons.mp hd with rfl | hd
        · have heff := phaseStep_effect hstep hr hp hph htg i hsi hie hlen
          have havoid : ∀ y ∈ rest, ∀ s2 e2, diveRange dvals y = some (s2, e2) →
              i < s2 ∨ e2 < i := by
            intro y hy s2 e2 hry
            have hne : d ≠ y := fun hxy => hxnot (hxy ▸ hy)
            rcases hdisj d (List.mem_cons_self _ _) y (List.mem_cons_of_mem _ hy)
              hne s e s2 e2 hr hry with hc | hc
            · left
              omega
            · right
              omega
          rw [ih3 i havoid, heff]
        · have hp1 : lookupVar ds1 "PRES" = some presVar := by
            rw [phaseStep_lookup_other hstep "PRES" (by decide), hp]
          have htg1 : lookupVar ds1 "TIME_GPS" = some tg := by
            rw [phaseStep_lookup_other hstep "TIME_GPS" (by decide), htg]
          obtain ⟨w, hw, hlw, _⟩ := phaseStep_ph hstep ph hph
          exact ih4 d hd s e hr presVar hp1 w hw tg htg1 i hsi hie (by rw [hlw]; exact hlen)

/-- C2 (amended: dives occupy contiguous index blocks). For a dive `[s, e]`
whose pressure slice has its first NaN-ignoring maximum at relative index
`ridx`, `assign_phase` returns PHASE 3 on the inclusive window between the
first two valid TIME_GPS indices of the dive when at least two exist, PHASE 2
elsewhere on `[s, s + ridx]` and PHASE 1 elsewhere on `(s + ridx, e]`; with
fewer than two valid fixes only the 2/1 split applies; and PHASE_QC is the
constant integer 0 at every index of the stream. -/
theorem assign_phase_spec
    (ds out : DSet) (divenumStr : String) (dv presVar tg : Var) (dvals : List ℚ)
    (d p : ℚ) (s e ridx : Nat)
    (hchoice : divenumKey ds = some divenumStr)
    (hdv : lookupVar ds divenumStr = some dv)
    (hvals : allSome dv.values = some dvals)
    (hlen : dvals.length = ds.len)
    (hctg : Contiguous dvals)
    (hpres : lookupVar ds "PRES" = some presVar)
    (htg : lookupVar ds "TIME_GPS" = some tg)
    (hrun : assign_phase ds = some out)
    (hrange : diveRange dvals d = some (s, e))
    (hmax : IsFirstNanMax (slice presVar.values s e) ridx p) :
    (∀ i < ds.len, getVal out "PHASE_QC" i = some 0) ∧
    (∀ r0 r1, FirstTwoValid (slice tg.values s e) r0 r1 →
      ∀ i, s ≤ i → i ≤ e →
        getVal out "PHASE" i =
          if s + r0 ≤ i ∧ i ≤ s + r1 then some 3
          else if i ≤ s + ridx then some 2 else some 1) ∧
    (firstTwoValid (slice tg.values s e) = none →
      ∀ i, s ≤ i → i ≤ e →
        getVal out "PHASE" i = if i ≤ s + ridx then some 2 else some 1) := by
  have hone : divenumStr = "dive_number" ∨ divenumStr = "divenum" ∨
      divenumStr = "dive_num" := by
    rw [divenumKey] at hchoice
    split at hchoice
    · exact Or.inl (Option.some.inj hchoice).symm
    · split at hchoice
      · exact Or.inr (Or.inl (Option.some.inj hchoice).symm)
      · split at hchoice
        · exact Or.inr (Or.inr (Option.some.inj hchoice).symm)
        · exact Option.noConfusion hchoice
  have hne1 : divenumStr ≠ "PHASE" := by rcases hone with rfl | rfl | rfl <;> decide
  have hne2 : divenumStr ≠ "PHASE_QC" := by rcases hone with rfl | rfl | rfl <;> decide
  have hdv2 : lookupVar (setVar (setVar ds "PHASE" ⟨List.replicate ds.len none, []⟩)
      "PHASE_QC" ⟨List.replicate ds.len (some 0), []⟩) divenumStr = some dv := by
    rw [lookupVar_setVar, if_neg hne2, lookupVar_setVar, if_neg hne1, hdv]
  rw [assign_phase, hchoice] at hrun
  simp only [Option.bind_eq_bind, Option.some_bind] at hrun
  rw [hdv2] at hrun
  simp only [Option.some_bind] at hrun
  rw [hvals] at hrun
  simp only [Option.some_bind] at hrun
  have hp2 : lookupVar (setVar (setVar ds "PHASE" ⟨List.replicate ds.len none, []⟩)
      "PHASE_QC" ⟨List.replicate ds.len (some 0), []⟩) "PRES" = some presVar := by
    rw [lookupVar_setVar, if_neg (by decide), lookupVar_setVar, if_neg (by decide), hpres]
  have htg2 : lookupVar (setVar (setVar ds "PHASE" ⟨List.replicate ds.len none, []⟩)
      "PHASE_QC" ⟨List.replicate ds.len (some 0), []⟩) "TIME_GPS" = some tg := by
    rw [lookupVar_setVar, if_neg (by decide), lookupVar_setVar, if_neg (by decide), htg]
  have hph2 : lookupVar (setVar (setVar ds "PHASE" ⟨List.replicate ds.len none, []⟩)
      "PHASE_QC" ⟨List.replicate ds.len (some 0), []⟩) "PHASE" =
      some ⟨List.replicate ds.len none, []⟩ := by
    rw [lookupVar_setVar, if_neg (by decide), lookupVar_setVar, if_pos rfl]
  have hqc2 : lookupVar (setVar (setVar ds "PHASE" ⟨List.replicate ds.len none, []⟩)
      "PHASE_QC" ⟨List.replicate ds.len (some 0), []⟩) "PHASE_QC" =
      some ⟨List.replicate ds.len (some 0), []⟩ := by
    rw [lookupVar_setVar, if_pos rfl]
  have hmemd : d ∈ uniqueSorted dvals :=
    (mem_uniqueSorted dvals d).mpr (mem_of_diveRange hrange)
  obtain ⟨f1, f2, f3, f4⟩ := foldPhase_spec dvals (uniqueSorted dvals) _ out hrun
    (fun x hx => diveRange_isSome_of_mem ((mem_uniqueSorted dvals x).mp hx))
    (List.nodup_dedup _)
    (fun a ha b hb hab s1 e1 s2 e2 h1 h2 => blocks_disjoint hctg hab h1 h2)
  have hework := diveRange_spec hrange
  have hrelx : pmaxIndexRel (slice presVar.values s e) = ridx := pmaxIndexRel_eq hmax
  have heff : ∀ i, s ≤ i → i ≤ e →
      getVal out "PHASE" i = phaseFormula presVar.values tg.values s e i := by
    intro i hsi hie
    exact f4 d hmemd s e hrange presVar hp2 ⟨List.replicate ds.len none, []⟩ hph2
      tg htg2 i hsi hie (by rw [List.length_replicate]; omega)
  refine ⟨?_, ?_, ?_⟩
  · intro i hi
    rw [getVal, f1 "PHASE_QC" (by decide), hqc2]
    dsimp only
    rw [List.getD_eq_getElem _ _ (by rwa [List.length_replicate])]
    exact List.getElem_replicate _ _
  · intro r0 r1 hspec i hsi hie
    have hfc := firstTwoValid_of_spec hspec
    rw [heff i hsi hie, phaseFormula, hfc]
    dsimp only
    rw [hrelx]
  · intro hfc i hsi hie
    rw [heff i hsi hie, phaseFormula, hfc, hrelx]

/-- Measurement stream used as the C2 witness: one dive with two GPS fixes. -/
def dsC2w : DSet :=
  ⟨4, [("PRES", ⟨[some 10, some 30, some 20, some 5], []⟩),
       ("divenum", ⟨[some 1, some 1, some 1, some 1], []⟩),
       ("TIME_GPS", ⟨[some 0, none, some 1, none], []⟩)]⟩

/-- Output of `assign_phase` on `dsC2w`. -/
def dsC2run : DSet := (assign_phase dsC2w).getD ⟨0, []⟩

theorem assign_phase_spec_witness :
    getVal dsC2run "PHASE" 3 = some 1 := by
  have h := (assign_phase_spec dsC2w dsC2run "divenum"
    ⟨[some 1, some 1, some 1, some 1], []⟩
    ⟨[some 10, some 30, some 20, some 5], []⟩
    ⟨[some 0, none, some 1, none], []⟩
    [1, 1, 1, 1] 1 30 0 3 1 (by decide) (by decide) (by decide) (by decide)
    (by decide) (by decide) (by decide) (by decide) (by decide) (by decide)).2.1
    0 2 (by decide) 3 (by decide) (by decide)
  rw [h]
  decide

/-- Interleaved-dive stream refuting C1 and C7 as stated: dive numbers
`[2, 1, 2]` with pressures `[30, 20, 10]`. -/
def dsCexA : DSet :=
  ⟨3, [("PRES", ⟨[some 30, some 20, some 10], []⟩),
       ("divenum", ⟨[some 2, some 1, some 2], []⟩)]⟩

/-- Output of `assign_profile_number` on `dsCexA`. -/
def dsCexARun : DSet := (assign_profile_number dsCexA "divenum").getD ⟨0, []⟩

/-- C1 counterexample: in the stream with dive numbers `[2,1,2]`, dive 1 has
index range `[1, 1]` with non-NaN PRES there (its first maximum is 20 at
relative index 0), so the claim requires `dive_num_cast = 1` at index 1; the
code returns 2.5 there, because dive 2 is processed later over the enclosing
range `[0, 2]`. -/
theorem assign_profile_number_cex :
    assign_profile_number dsCexA "divenum" = some dsCexARun ∧
    diveRange [2, 1, 2] 1 = some (1, 1) ∧
    IsFirstNanMax (slice [some 30, some 20, some 10] 1 1) 0 20 ∧
    getVal dsCexARun "dive_num_cast" 1 = some (Rat.divInt 5 2) ∧
    Rat.divInt 5 2 = 5/2 ∧
    some ((5 : ℚ)/2) ≠ some (1 : ℚ) := by
  refine ⟨by decide, by decide, by decide, by decide, ?_, ?_⟩
  · rw [Rat.divInt_eq_div]
    norm_num
  · intro h
    simp only [Option.some.injEq] at h
    norm_num at h

/-- Stream with the same dive-number column and TIME_GPS as `dsCexA` and the
same PRES at dive 1's index, differing from `dsCexA` only in dive 2's PRES. -/
def dsCexPh : DSet :=
  ⟨3, [("PRES", ⟨[some 30, some 20, some 10], []⟩),
       ("divenum", ⟨[some 2, some 1, some 2], []⟩),
       ("TIME_GPS", ⟨[none, none, none], []⟩)]⟩

/-- Output of `assign_phase` on `dsCexPh`. -/
def dsCexPhRun : DSet := (assign_phase dsCexPh).getD ⟨0, []⟩

/-- C2 counterexample: in the stream with dive numbers `[2,1,2]`, dive 1 has
index range `[1, 1]`, non-NaN PRES there, and index 1 lies in
`[start, pmax_index]` of dive 1, so the claim requires `PHASE = 2` at index 1;
the code returns 1 there, because dive 2 is processed later over the enclosing
range `[0, 2]` and overwrites index 1 with its ascent phase. -/
theorem assign_phase_cex :
    assign_phase dsCexPh = some dsCexPhRun ∧
    diveRange [2, 1, 2] 1 = some (1, 1) ∧
    IsFirstNanMax (slice [some 30, some 20, some 10] 1 1) 0 20 ∧
    getVal dsCexPhRun "PHASE" 1 = some 1 ∧
    (some (1 : ℚ) : Val) ≠ some 2 := by
  refine ⟨by decide, by decide, by decide, by decide, by decide⟩

/-- Behaviour of a full `assign_profile_number` run on one dive range (helper
shared by the independence theorem). -/
theorem profile_run_spec
    (ds out : DSet) (divenumStr : String) (dv presVar : Var) (dvals : List ℚ)
    (d : ℚ) (s e : Nat)
    (hstr1 : divenumStr ≠ "dive_num_cast")
    (hdv : lookupVar ds divenumStr = some dv)
    (hvals : allSome dv.values = some dvals)
    (hlen : dvals.length = ds.len)
    (hctg : Contiguous dvals)
    (hpres : lookupVar ds "PRES" = some presVar)
    (hrun : assign_profile_number ds divenumStr = some out)
    (hrange : diveRange dvals d = some (s, e)) :
    (∀ i, s ≤ i → i ≤ e →
      getVal out "dive_num_cast" i =
        if i ≤ s + pmaxIndexRel (slice presVar.values s e) then some d
        else some (qadd d (Rat.divInt 1 2))) ∧
    (∀ i, getVal out "PROFILE_NUMBER" i =
      (getVal out "dive_num_cast" i).map (fun q => qsub (qmul 2 q) 1)) := by
  have hds1 : lookupVar (setVar (dropVar ds "dive_num_cast") "dive_num_cast"
      ⟨List.replicate ds.len none, []⟩) divenumStr = some dv := by
    rw [lookupVar_setVar, if_neg hstr1, lookupVar_dropVar, if_neg hstr1, hdv]
  rw [assign_profile_number, hds1] at hrun
  simp only [Option.bind_eq_bind, Option.some_bind] at hrun
  rw [hvals] at hrun
  simp only [Option.some_bind] at hrun
  have hp1 : lookupVar (setVar (dropVar ds "dive_num_cast") "dive_num_cast"
      ⟨List.replicate ds.len none, []⟩) "PRES" = some presVar := by
    rw [lookupVar_setVar, if_neg (by decide), lookupVar_dropVar, if_neg (by decide), hpres]
  have hd1 : lookupVar (setVar (dropVar ds "dive_num_cast") "dive_num_cast"
      ⟨List.replicate ds.len none, []⟩) "dive_num_cast" =
      some ⟨List.replicate ds.len none, []⟩ := by
    rw [lookupVar_setVar, if_pos rfl]
  have hmemd : d ∈ uniqueSorted dvals :=
    (mem_uniqueSorted dvals d).mpr (mem_of_diveRange hrange)
  obtain ⟨f1, f2, f3, f4, f5⟩ := foldProfile_spec dvals (uniqueSorted dvals) _ out hrun
    (fun x hx => diveRange_isSome_of_mem ((mem_uniqueSorted dvals x).mp hx))
    (List.nodup_dedup _)
    (fun a ha b hb hab s1 e1 s2 e2 h1 h2 => blocks_disjoint hctg hab h1 h2)
  have hework := diveRange_spec hrange
  refine ⟨?_, ?_⟩
  · intro i hsi hie
    exact f4 d hmemd s e hrange presVar hp1 ⟨List.replicate ds.len none, []⟩ hd1
      i hsi hie (by rw [List.length_replicate]; omega)
  · intro i
    have hpn : PNlinked out := f5 (List.ne_nil_of_mem hmemd)
    obtain ⟨w, hw, hwl, hwa⟩ := f2 ⟨List.replicate ds.len none, []⟩ hd1
    rw [PNlinked, hw] at hpn
    rw [getVal, hpn, getVal, hw, Option.map_some']
    dsimp only
    rw [getD_map_optionMap]

/-- Behaviour of a full `assign_phase` run on one dive range (helper shared
by the independence theorem). -/
theorem phase_run_spec
    (ds out : DSet) (divenumStr : String) (dv presVar tg : Var) (dvals : List ℚ)
    (d : ℚ) (s e : Nat)
    (hchoice : divenumKey ds = some divenumStr)
    (hdv : lookupVar ds divenumStr = some dv)
    (hvals : allSome dv.values = some dvals)
    (hlen : dvals.length = ds.len)
    (hctg : Contiguous dvals)
    (hpres : lookupVar ds "PRES" = some presVar)
    (htg : lookupVar ds "TIME_GPS" = some tg)
    (hrun : assign_phase ds = some out)
    (hrange : diveRange dvals d = some (s, e)) :
    ∀ i, s ≤ i → i ≤ e →
      getVal out "PHASE" i = phaseFormula presVar.values tg.values s e i := by
  have hone : divenumStr = "dive_number" ∨ divenumStr = "divenum" ∨
      divenumStr = "dive_num" := by
    rw [divenumKey] at hchoice
    split at hchoice
    · exact Or.inl (Option.some.inj hchoice).symm
    · split at hchoice
      · exact Or.inr (Or.inl (Option.some.inj hchoice).symm)
      · split at hchoice
        · exact Or.inr (Or.inr (Option.some.inj hchoice).symm)
        · exact Option.noConfusion hchoice
  have hne1 : divenumStr ≠ "PHASE" := by rcases hone with rfl | rfl | rfl <;> decide
  have hne2 : divenumStr ≠ "PHASE_QC" := by rcases hone with rfl | rfl | rfl <;> decide
  have hdv2 : lookupVar (setVar (setVar ds "PHASE" ⟨List.replicate ds.len none, []⟩)
      "PHASE_QC" ⟨List.replicate ds.len (some 0), []⟩) divenumStr = some dv := by
    rw [lookupVar_setVar, if_neg hne2, lookupVar_setVar, if_neg hne1, hdv]
  rw [assign_phase, hchoice] at hrun
  simp only [Option.bind_eq_bind, Option.some_bind] at hrun
  rw [hdv2] at hrun
  simp only [Option.some_bind] at hrun
  rw [hvals] at hrun
  simp only [Option.some_bind] at hrun
  have hp2 : lookupVar (setVar (setVar ds "PHASE" ⟨List.replicate ds.len none, []⟩)
      "PHASE_QC" ⟨List.replicate ds.len (some 0), []⟩) "PRES" = some presVar := by
    rw [lookupVar_setVar, if_neg (by decide), lookupVar_setVar, if_neg (by decide), hpres]
  have htg2 : lookupVar (setVar (setVar ds "PHASE" ⟨List.replicate ds.len none, []⟩)
      "PHASE_QC" ⟨List.replicate ds.len (some 0), []⟩) "TIME_GPS" = some tg := by
    rw [lookupVar_setVar, if_neg (by decide), lookupVar_setVar, if_neg (by decide), htg]
  have hph2 : lookupVar (setVar (setVar ds "PHASE" ⟨List.replicate ds.len none, []⟩)
      "PHASE_QC" ⟨List.replicate ds.len (some 0), []⟩) "PHASE" =
      some ⟨List.replicate ds.len none, []⟩ := by
    rw [lookupVar_setVar, if_neg (by decide), lookupVar_setVar, if_pos rfl]
  have hmemd : d ∈ uniqueSorted dvals :=
    (mem_uniqueSorted dvals d).mpr (mem_of_diveRange hrange)
  obtain ⟨f1, f2, f3, f4⟩ := foldPhase_spec dvals (uniqueSorted dvals) _ out hrun
    (fun x hx => diveRange_isSome_of_mem ((mem_uniqueSorted dvals x).mp hx))
    (List.nodup_dedup _)
    (fun a ha b hb hab s1 e1 s2 e2 h1 h2 => blocks_disjoint hctg hab h1 h2)
  have hework := diveRange_spec hrange
  intro i hsi hie
  exact f4 d hmemd s e hrange presVar hp2 ⟨List.replicate ds.len none, []⟩ hph2
    tg htg2 i hsi hie (by rw [List.length_replicate]; omega)

theorem slice_congr {xs ys : List Val} {s e : Nat}
    (hlen : xs.length = ys.length)
    (h : ∀ i, s ≤ i → i ≤ e → xs.getD i none = ys.getD i none) :
    slice xs s e = slice ys s e := by
  apply List.ext_getElem?
  intro j
  rw [slice, slice, List.getElem?_take, List.getElem?_take, List.getElem?_drop,
    List.getElem?_drop]
  by_cases hj : j < e + 1 - s
  · rw [if_pos hj, if_pos hj]
    have hse : s + j ≤ e := by omega
    have := h (s + j) (by omega) hse
    rcases lt_or_ge (s + j) xs.length with hlt | hge
    · have hlt2 : s + j < ys.length := by omega
      rw [List.getD_eq_getElem _ _ hlt, List.getD_eq_getElem _ _ hlt2] at this
      rw [List.getElem?_eq_getElem hlt, List.getElem?_eq_getElem hlt2, this]
    · rw [List.getElem?_eq_none (by omega), List.getElem?_eq_none (by omega)]
  · rw [if_neg hj, if_neg hj]

/-- C7 (amended: dives occupy contiguous index blocks). The dive-state engine
is then dive-local: for two streams with the same dive-number column whose
PRES and TIME_GPS data agree on dive `d`'s index block, the assigned
`dive_num_cast`, `PROFILE_NUMBER` and `PHASE` values agree at every index of
that block — the values of one dive are unaffected by the data of the other
dives. -/
theorem dive_engine_independence
    (dsA dsB outA outB outPA outPB : DSet) (divenumStr : String)
    (dvA dvB pA pB tgA tgB : Var) (dvals : List ℚ) (d : ℚ) (s e : Nat)
    (hstr1 : divenumStr ≠ "dive_num_cast")
    (hdvA : lookupVar dsA divenumStr = some dvA)
    (hdvB : lookupVar dsB divenumStr = some dvB)
    (hvalsA : allSome dvA.values = some dvals)
    (hvalsB : allSome dvB.values = some dvals)
    (hlenA : dvals.length = dsA.len) (hlenB : dvals.length = dsB.len)
    (hctg : Contiguous dvals)
    (hpA : lookupVar dsA "PRES" = some pA)
    (hpB : lookupVar dsB "PRES" = some pB)
    (hplA : pA.values.length = dsA.len) (hplB : pB.values.length = dsB.len)
    (hagree : ∀ i, s ≤ i → i ≤ e → pA.values.getD i none = pB.values.getD i none)
    (hrange : diveRange dvals d = some (s, e))
    (hrunA : assign_profile_number dsA divenumStr = some outA)
    (hrunB : assign_profile_number dsB divenumStr = some outB)
    (hchA : divenumKey dsA = some divenumStr)
    (hchB : divenumKey dsB = some divenumStr)
    (htgA : lookupVar dsA "TIME_GPS" = some tgA)
    (htgB : lookupVar dsB "TIME_GPS" = some tgB)
    (htlA : tgA.values.length = dsA.len) (htlB : tgB.values.length = dsB.len)
    (htagree : ∀ i, s ≤ i → i ≤ e → tgA.values.getD i none = tgB.values.getD i none)
    (hrunPA : assign_phase dsA = some outPA)
    (hrunPB : assign_phase dsB = some outPB) :
    ∀ i, s ≤ i → i ≤ e →
      getVal outA "dive_num_cast" i = getVal outB "dive_num_cast" i ∧
      getVal outA "PROFILE_NUMBER" i = getVal outB "PROFILE_NUMBER" i ∧
      getVal outPA "PHASE" i = getVal outPB "PHASE" i := by
  have hpslice : slice pA.values s e = slice pB.values s e :=
    slice_congr (by omega) hagree
  have htslice : slice tgA.values s e = slice tgB.values s e :=
    slice_congr (by omega) htagree
  obtain ⟨gA1, gA2⟩ := profile_run_spec dsA outA divenumStr dvA pA dvals d s e
    hstr1 hdvA hvalsA hlenA hctg hpA hrunA hrange
  obtain ⟨gB1, gB2⟩ := profile_run_spec dsB outB divenumStr dvB pB dvals d s e
    hstr1 hdvB hvalsB hlenB hctg hpB hrunB hrange
  have gPA := phase_run_spec dsA outPA divenumStr dvA pA tgA dvals d s e
    hchA hdvA hvalsA hlenA hctg hpA htgA hrunPA hrange
  have gPB := phase_run_spec dsB outPB divenumStr dvB pB tgB dvals d s e
    hchB hdvB hvalsB hlenB hctg hpB htgB hrunPB hrange
  intro i hsi hie
  have hdnc : getVal outA "dive_num_cast" i = getVal outB "dive_num_cast" i := by
    rw [gA1 i hsi hie, gB1 i hsi hie, hpslice]
  refine ⟨hdnc, ?_, ?_⟩
  · rw [gA2 i, gB2 i, hdnc]
  · rw [gPA i hsi hie, gPB i hsi hie, phaseFormula, phaseFormula, hpslice, htslice]

/-- Stream agreeing with `dsCexA` on the dive-number column and on dive 1's
PRES value, but with different PRES values for dive 2. -/
def dsCexB : DSet :=
  ⟨3, [("PRES", ⟨[some 10, some 20, some 30], []⟩),
       ("divenum", ⟨[some 2, some 1, some 2], []⟩)]⟩

/-- Output of `assign_profile_number` on `dsCexB`. -/
def dsCexBRun : DSet := (assign_profile_number dsCexB "divenum").getD ⟨0, []⟩

/-- C7 counterexample: `dsCexA` and `dsCexB` agree on the dive-number column
and on all of dive 1's data (its single record, index 1), and differ only in
dive 2's pressures; yet the returned `dive_num_cast` at dive 1's index
differs (2.5 versus 2), so dive 1's values are affected by the processing of
dive 2. -/
theorem dive_engine_independence_cex :
    lookupVar dsCexA "divenum" = lookupVar dsCexB "divenum" ∧
    getVal dsCexA "PRES" 1 = getVal dsCexB "PRES" 1 ∧
    diveRange [2, 1, 2] 1 = some (1, 1) ∧
    assign_profile_number dsCexA "divenum" = some dsCexARun ∧
    assign_profile_number dsCexB "divenum" = some dsCexBRun ∧
    getVal dsCexARun "dive_num_cast" 1 ≠ getVal dsCexBRun "dive_num_cast" 1 := by
  refine ⟨by decide, by decide, by decide, by decide, by decide, by decide⟩

/-- Contiguous two-dive stream used by the C7 witness. -/
def dsC7wA : DSet :=
  ⟨4, [("PRES", ⟨[some 10, some 20, some 5, some 1], []⟩),
       ("divenum", ⟨[some 1, some 1, some 2, some 2], []⟩),
       ("TIME_GPS", ⟨[none, none, none, none], []⟩)]⟩

/-- Variant of `dsC7wA` that differs only in dive 2's pressures. -/
def dsC7wB : DSet :=
  ⟨4, [("PRES", ⟨[some 10, some 20, some 99, some 1], []⟩),
       ("divenum", ⟨[some 1, some 1, some 2, some 2], []⟩),
       ("TIME_GPS", ⟨[none, none, none, none], []⟩)]⟩

/-- Profile output of `assign_profile_number` on `dsC7wA`. -/
def dsC7wARun : DSet := (assign_profile_number dsC7wA "divenum").getD ⟨0, []⟩

/-- Profile output of `assign_profile_number` on `dsC7wB`. -/
def dsC7wBRun : DSet := (assign_profile_number dsC7wB "divenum").getD ⟨0, []⟩

/-- Phase output of `assign_phase` on `dsC7wA`. -/
def dsC7wAPh : DSet := (assign_phase dsC7wA).getD ⟨0, []⟩

/-- Phase output of `assign_phase` on `dsC7wB`. -/
def dsC7wBPh : DSet := (assign_phase dsC7wB).getD ⟨0, []⟩

theorem dive_engine_independence_witness :
    getVal dsC7wARun "dive_num_cast" 0 = getVal dsC7wBRun "dive_num_cast" 0 ∧
    getVal dsC7wARun "PROFILE_NUMBER" 0 = getVal dsC7wBRun "PROFILE_NUMBER" 0 ∧
    getVal dsC7wAPh "PHASE" 0 = getVal dsC7wBPh "PHASE" 0 :=
  dive_engine_independence dsC7wA dsC7wB dsC7wARun dsC7wBRun dsC7wAPh dsC7wBPh
    "divenum" ⟨[some 1, some 1, some 2, some 2], []⟩ ⟨[some 1, some 1, some 2, some 2], []⟩
    ⟨[some 10, some 20, some 5, some 1], []⟩ ⟨[some 10, some 20, some 99, some 1], []⟩
    ⟨[none, none, none, none], []⟩ ⟨[none, none, none, none], []⟩
    [1, 1, 2, 2] 1 0 1 (by decide) (by decide) (by decide) (by decide) (by decide)
    (by decide) (by decide) (by decide) (by decide) (by decide) (by decide) (by decide)
    (fun i _ hi => by interval_cases i <;> decide)
    (by decide) (by decide) (by decide) (by decide) (by decide) (by decide) (by decide)
    (by decide) (by decide)
    (fun i _ hi => by interval_cases i <;> decide)
    (by decide) (by decide) 0 (by decide) (by decide)

/-!
GPS fusion: `add_gps_info_to_dataset` (`convertOG1.py` lines 326-369).
-/

/-- Comparison used by `sortby('TIME')`: numeric order with NaN sorted last,
as `np.argsort` places NaNs at the end. -/
def vle (a b : Val) : Bool :=
  match a, b with
  | none, none => true
  | none, some _ => false
  | some _, none => true
  | some x, some y => decide (x ≤ y)

theorem vle_total (a b : Val) : vle a b = true ∨ vle b a = true := by
  cases a <;> cases b <;> simp [vle]
  exact le_total _ _

theorem vle_trans (a b c : Val) : vle a b = true → vle b c = true → vle a c = true := by
  cases a <;> cases b <;> cases c <;> simp [vle]
  exact fun h1 h2 => le_trans h1 h2

/-- Index permutation produced by sorting positions by their TIME value. -/
def sortPerm (n : Nat) (tvals : List Val) : List Nat :=
  sortLe (fun i j => vle (tvals.getD i none) (tvals.getD j none)) (List.range n)

/-- Model of `ds.sortby('TIME')`: reindex every variable along the axis by the
time-sorted index permutation (KeyError when TIME is absent). -/
def sortByTime (ds : DSet) : Option DSet := do
  let t ← lookupVar ds "TIME"
  some ⟨ds.len, ds.vars.map (fun p =>
    (p.1, ⟨(sortPerm ds.len t.values).map (fun i => p.2.values.getD i none), p.2.attrs⟩))⟩

/-- Values of a variable, NaN-filled when the variable is absent (how
`xr.concat` aligns a variable missing from one input). -/
def varValuesOrNaN (ds : DSet) (n : String) : List Val :=
  match lookupVar ds n with
  | some v => v.values
  | none => List.replicate ds.len none

/-- Model of `xr.concat([a, b], dim='N_MEASUREMENTS')`: the axis lengths add;
variables of `a` are extended by `b`'s values (NaN-filled when absent), and
variables only in `b` are prefixed with NaN for `a`'s records. -/
def concatNM (a b : DSet) : DSet :=
  ⟨a.len + b.len,
    a.vars.map (fun p => (p.1, ⟨p.2.values ++ varValuesOrNaN b p.1, p.2.attrs⟩)) ++
    (b.vars.filter (fun q => !(hasKey a.vars q.1))).map
      (fun q => (q.1, ⟨List.replicate a.len none ++ q.2.values, q.2.attrs⟩))⟩

/-- Model of `add_gps_info_to_dataset(ds, gps_ds)`: build the GPS side stream
with coordinates LATITUDE/LONGITUDE/TIME/DEPTH(=0) and mirrored
LATITUDE_GPS/LONGITUDE_GPS/TIME_GPS, concatenate it onto the main stream
along N_MEASUREMENTS, and re-sort the combined stream by TIME.
`none` models the KeyError/alignment errors when `log_gps_lat`,
`log_gps_lon` or `log_gps_time` are absent or have mismatched lengths. -/
def add_gps_info_to_dataset (ds gpsIn : DSet) : Option DSet := do
  let lat ← lookupVar gpsIn "log_gps_lat"
  let lon ← lookupVar gpsIn "log_gps_lon"
  let tim ← lookupVar gpsIn "log_gps_time"
  if lon.values.length = lat.values.length ∧ tim.values.length = lat.values.length then
    let m := lat.values.length
    let gps : DSet := ⟨m,
      [("LONGITUDE", ⟨lon.values, []⟩),
       ("LATITUDE", ⟨lat.values, []⟩),
       ("TIME", ⟨tim.values, []⟩),
       ("DEPTH", ⟨List.replicate m (some 0), []⟩),
       ("LATITUDE_GPS", ⟨lat.values, []⟩),
       ("LONGITUDE_GPS", ⟨lon.values, []⟩),
       ("TIME_GPS", ⟨tim.values, []⟩)]⟩
    sortByTime (concatNM ds gps)
  else none

theorem alookup_map_snd {α β : Type} (f : α → β) (l : List (String × α)) (k : String) :
    alookup (l.map (fun p => (p.1, f p.2))) k = (alookup l k).map f := by
  induction l with
  | nil => rfl
  | cons p l ih =>
    rcases eq_or_ne p.1 k with hp | hp
    · rw [List.map_cons, alookup_cons, alookup_cons]
      simp only [hp, if_pos rfl]
      rfl
    · rw [List.map_cons, alookup_cons, alookup_cons, if_neg hp, if_neg hp, ih]

theorem alookup_mapval {α β : Type} (g : String → α → β) (l : List (String × α)) (k : String) :
    alookup (l.map (fun p => (p.1, g p.1 p.2))) k = (alookup l k).map (g k) := by
  induction l with
  | nil => rfl
  | cons p l ih =>
    rcases eq_or_ne p.1 k with hp | hp
    · rw [List.map_cons, alookup_cons, alookup_cons]
      simp only [hp, if_pos rfl]
      subst hp
      rfl
    · rw [List.map_cons, alookup_cons, alookup_cons, if_neg hp, if_neg hp, ih]

theorem alookup_append {α : Type} (l1 l2 : List (String × α)) (k : String) :
    alookup (l1 ++ l2) k = (alookup l1 k).or (alookup l2 k) := by
  induction l1 with
  | nil => rfl
  | cons p l ih =>
    rw [List.cons_append, alookup_cons, alookup_cons]
    rcases eq_or_ne p.1 k with hp | hp
    · rw [if_pos hp, if_pos hp]
      rfl
    · rw [if_neg hp, if_neg hp, ih]

theorem alookup_filter_not_hasKey {α : Type} (l1 l2 : List (String × α)) (k : String)
    (h : hasKey l1 k = false) :
    alookup (l2.filter (fun q => !(hasKey l1 q.1))) k = alookup l2 k := by
  induction l2 with
  | nil => rfl
  | cons p l ih =>
    rcases eq_or_ne p.1 k with hp | hp
    · subst hp
      rw [List.filter_cons, if_pos (by rw [h]; rfl), alookup_cons, alookup_cons, ih]
    · rw [List.filter_cons]
      by_cases hk : hasKey l1 p.1 = true
      · rw [if_neg (by rw [hk]; simp), ih]
        rw [alookup_cons, if_neg hp]
      · rw [if_pos (by rw [Bool.not_eq_true] at hk; rw [hk]; rfl), alookup_cons,
          if_neg hp, ih]
        rw [alookup_cons, if_neg hp]

theorem alookup_filter_hasKey_none {α : Type} (l1 l2 : List (String × α)) (k : String)
    (h : hasKey l1 k = true) :
    alookup (l2.filter (fun q => !(hasKey l1 q.1))) k = none := by
  induction l2 with
  | nil => rfl
  | cons p l ih =>
    rcases eq_or_ne p.1 k with hp | hp
    · subst hp
      rw [List.filter_cons, if_neg (by rw [h]; simp), ih]
    · rw [List.filter_cons]
      by_cases hk : hasKey l1 p.1 = true
      · rw [if_neg (by rw [hk]; simp), ih]
      · rw [if_pos (by rw [Bool.not_eq_true] at hk; rw [hk]; rfl), alookup_cons,
          if_neg hp, ih]

theorem hasKey_true_of_alookup {α : Type} {l : List (String × α)} {k : String} {v : α}
    (h : alookup l k = some v) : hasKey l k = true := by
  rw [hasKey_iff_alookup, h]
  rfl

theorem hasKey_false_of_alookup {α : Type} {l : List (String × α)} {k : String}
    (h : alookup l k = none) : hasKey l k = false := by
  by_contra hc
  rw [Bool.not_eq_false, hasKey_iff_alookup, h] at hc
  exact Bool.noConfusion hc

theorem lookupVar_concatNM (a b : DSet) (n : String) :
    lookupVar (concatNM a b) n =
      match lookupVar a n with
      | some v => some ⟨v.values ++ varValuesOrNaN b n, v.attrs⟩
      | none => (lookupVar b n).map
          (fun w => ⟨List.replicate a.len none ++ w.values, w.attrs⟩) := by
  rw [lookupVar, concatNM]
  show alookup (_ ++ _) n = _
  rw [alookup_append]
  have hmap : alookup (a.vars.map (fun p =>
      (p.1, (⟨p.2.values ++ varValuesOrNaN b p.1, p.2.attrs⟩ : Var)))) n =
      (alookup a.vars n).map (fun v => ⟨v.values ++ varValuesOrNaN b n, v.attrs⟩) :=
    alookup_mapval (fun k v => (⟨v.values ++ varValuesOrNaN b k, v.attrs⟩ : Var)) a.vars n
  rw [hmap]
  rw [lookupVar]
  rcases ha : alookup a.vars n with _ | v
  · rw [Option.map_none']
    show alookup ((b.vars.filter (fun q => !(hasKey a.vars q.1))).map
      (fun q => (q.1, (⟨List.replicate a.len none ++ q.2.values, q.2.attrs⟩ : Var)))) n = _
    rw [alookup_map_snd (fun w : Var => (⟨List.replicate a.len none ++ w.values, w.attrs⟩ : Var))]
    rw [alookup_filter_not_hasKey _ _ _ (hasKey_false_of_alookup ha)]
    rfl
  · rw [Option.map_some']
    rfl

theorem lookupVar_sortByTime {ds out : DSet} (h : sortByTime ds = some out) :
    ∃ t : Var, lookupVar ds "TIME" = some t ∧ out.len = ds.len ∧
      ∀ n, lookupVar out n = (lookupVar ds n).map
        (fun v => ⟨(sortPerm ds.len t.values).map (fun i => v.values.getD i none),
          v.attrs⟩) := by
  rcases ht : lookupVar ds "TIME" with _ | t
  · rw [sortByTime, ht] at h
    exact Option.noConfusion h
  · rw [sortByTime, ht] at h
    simp only [Option.bind_eq_bind, Option.some_bind, Option.some.injEq] at h
    refine ⟨t, rfl, ?_, ?_⟩
    · rw [← h]
    · intro n
      rw [← h]
      exact alookup_map_snd (fun v : Var =>
        (⟨(sortPerm ds.len t.values).map (fun i => v.values.getD i none), v.attrs⟩ : Var))
        ds.vars n

/-- C3: GPS fusion adds exactly one record per GPS fix and returns a stream
whose TIME variable is sorted non-decreasingly (`vle`: numeric order, NaN
last); in particular any two numeric TIME values in index order are ordered. -/
theorem add_gps_info_spec
    (ds gpsIn out : DSet) (lat lon tim : Var)
    (hlat : lookupVar gpsIn "log_gps_lat" = some lat)
    (hlon : lookupVar gpsIn "log_gps_lon" = some lon)
    (htim : lookupVar gpsIn "log_gps_time" = some tim)
    (hrun : add_gps_info_to_dataset ds gpsIn = some out) :
    out.len = ds.len + lat.values.length ∧
    (∃ t : Var, lookupVar out "TIME" = some t ∧
      t.values.length = out.len ∧
      t.values.Pairwise (fun a b => vle a b = true) ∧
      (∀ i j : Nat, i < j → ∀ x y : ℚ, t.values.getD i none = some x →
        t.values.getD j none = some y → x ≤ y)) := by
  rw [add_gps_info_to_dataset, hlat] at hrun
  simp only [Option.bind_eq_bind, Option.some_bind] at hrun
  rw [hlon] at hrun
  simp only [Option.some_bind] at hrun
  rw [htim] at hrun
  simp only [Option.some_bind] at hrun
  rcases hcond : (decide (lon.values.length = lat.values.length ∧
      tim.values.length = lat.values.length)) with _ | _
  · rw [if_neg (by simpa using hcond)] at hrun
    exact Option.noConfusion hrun
  · rw [if_pos (by simpa using hcond)] at hrun
    obtain ⟨t, ht, hlen2, hall⟩ := lookupVar_sortByTime hrun
    have hconcat := lookupVar_concatNM ds
      ⟨lat.values.length,
        [("LONGITUDE", ⟨lon.values, []⟩),
         ("LATITUDE", ⟨lat.values, []⟩),
         ("TIME", ⟨tim.values, []⟩),
         ("DEPTH", ⟨List.replicate lat.values.length (some 0), []⟩),
         ("LATITUDE_GPS", ⟨lat.values, []⟩),
         ("LONGITUDE_GPS", ⟨lon.values, []⟩),
         ("TIME_GPS", ⟨tim.values, []⟩)]⟩ "TIME"
    have hlenc : out.len = ds.len + lat.values.length := by
      rw [hlen2]
      rfl
    refine ⟨hlenc, ?_⟩
    have hperm : (sortPerm (ds.len + lat.values.length) t.values).length =
        ds.len + lat.values.length := by
      rw [sortPerm, length_sortLe, List.length_range]
    have hsorted : (sortPerm (ds.len + lat.values.length) t.values).Pairwise
        (fun i j => vle (t.values.getD i none) (t.values.getD j none) = true) := by
      exact @pairwise_sortLe Nat
        (fun i j => vle (t.values.getD i none) (t.values.getD j none))
        (fun a b => vle_total _ _) (fun a b c => vle_trans _ _ _)
        (List.range (ds.len + lat.values.length))
    refine ⟨⟨(sortPerm (ds.len + lat.values.length) t.values).map
        (fun i => t.values.getD i none), t.attrs⟩, ?_, ?_, ?_, ?_⟩
    · have := hall "TIME"
      rw [ht, Option.map_some'] at this
      rw [this]
      rfl
    · show ((sortPerm (ds.len + lat.values.length) t.values).map
        (fun i => t.values.getD i none)).length = out.len
      rw [List.length_map, hperm, hlenc]
    · show ((sortPerm (ds.len + lat.values.length) t.values).map
        (fun i => t.values.getD i none)).Pairwise (fun a b => vle a b = true)
      rw [List.pairwise_map]
      exact hsorted
    · intro i j hij x y hx hy
      have hpair : List.Pairwise (fun a b => vle a b = true)
          (((sortPerm (ds.len + lat.values.length) t.values).map
            (fun i => t.values.getD i none))) := by
        rw [List.pairwise_map]
        exact hsorted
      set l := (sortPerm (ds.len + lat.values.length) t.values).map
        (fun i => t.values.getD i none) with hl
      have hjlen : j < l.length := by
        by_contra hc
        rw [List.getD_eq_default _ _ (not_lt.mp hc)] at hy
        exact Option.noConfusion hy
      have hilen : i < l.length := lt_trans hij hjlen
      have hrel := List.pairwise_iff_getElem.mp hpair i j hilen hjlen hij
      rw [List.getD_eq_getElem _ _ hilen] at hx
      rw [List.getD_eq_getElem _ _ hjlen] at hy
      rw [hx, hy] at hrel
      simpa [vle] using hrel

/-- Concrete main stream for exercising the GPS fusion: two measurements with
TIME out of order. -/
def dsC3 : DSet :=
  ⟨2, [("TIME", ⟨[some 5, some 1], []⟩), ("TEMP", ⟨[some 14, some 15], []⟩)]⟩

/-- Concrete GPS record with a single fix at time 3. -/
def gpsC3 : DSet :=
  ⟨1, [("log_gps_lat", ⟨[some 10], []⟩), ("log_gps_lon", ⟨[some 20], []⟩),
       ("log_gps_time", ⟨[some 3], []⟩)]⟩

/-- Result of fusing the concrete GPS record into the concrete stream. -/
def dsC3out : DSet := (add_gps_info_to_dataset dsC3 gpsC3).getD ⟨0, []⟩

/-- The GPS-fusion specification instantiated at the concrete stream and fix. -/
theorem add_gps_info_spec_witness :
    dsC3out.len = dsC3.len + 1 ∧
    (∃ t : Var, lookupVar dsC3out "TIME" = some t ∧
      t.values.length = dsC3out.len ∧
      t.values.Pairwise (fun a b => vle a b = true) ∧
      (∀ i j : Nat, i < j → ∀ x y : ℚ, t.values.getD i none = some x →
        t.values.getD j none = some y → x ≤ y)) :=
  add_gps_info_spec dsC3 gpsC3 dsC3out ⟨[some 10], []⟩ ⟨[some 20], []⟩ ⟨[some 3], []⟩
    (by decide) (by decide) (by decide) (by decide)

/-!
Variable renaming: `rename_variables` (`convertOG1.py` lines 236-261).
-/

/-- Uppercasing of a suffix string, as Python `suffix.upper()`. -/
def strUpper (s : String) : String := ⟨s.data.map Char.toUpper⟩

/-- The four per-entry name variants tried by `rename_variables`. -/
def suffixList : List String := ["", "_qc", "_raw", "_raw_qc"]

/-- Model of `ds.rename({o: n})`: every variable named `o` is renamed to `n`
in place, all other variables keep their name and position. -/
def renameKey (vars : List (String × Var)) (o n : String) : List (String × Var) :=
  vars.map (fun p => if p.1 = o then (n, p.2) else p)

/-- One iteration of the inner loop of `rename_variables`: for entry
`(old, new)` and a suffix, warn (and leave the stream untouched) when the
canonical target name already exists, otherwise rename the variant when it is
present. The accumulator carries the stream and the warnings printed so far. -/
def renameVariant (acc : DSet × List String) (old new : String) (sfx : String) :
    DSet × List String :=
  let variant := old ++ sfx
  let new_name1 := new ++ strUpper sfx
  if hasVar acc.1 new_name1 then
    (acc.1, acc.2 ++
      ["Warning: Variable " ++ new_name1 ++ " already exists in the dataset."])
  else if hasVar acc.1 variant then
    (⟨acc.1.len, renameKey acc.1.vars variant new_name1⟩, acc.2)
  else acc

/-- Model of `rename_variables(ds, rename_dict)`: fold the variant renaming
over every dictionary entry and every suffix, collecting console warnings. -/
def rename_variables (renameDict : List (String × String)) (ds : DSet) :
    DSet × List String :=
  renameDict.foldl
    (fun acc p => suffixList.foldl (fun a2 s => renameVariant a2 p.1 p.2 s) acc)
    (ds, [])

theorem hasKey_cons {α : Type} (p : String × α) (l : List (String × α)) (k : String) :
    hasKey (p :: l) k = (p.1 == k || hasKey l k) := rfl

theorem hasKey_cons_false {α : Type} {p : String × α} {l : List (String × α)} {k : String}
    (h : hasKey (p :: l) k = false) : p.1 ≠ k ∧ hasKey l k = false := by
  rw [hasKey_cons, Bool.or_eq_false_iff] at h
  exact ⟨by simpa using h.1, h.2⟩

theorem alookup_renameKey_new (vars : List (String × Var)) (o n : String)
    (hn : hasKey vars n = false) :
    alookup (renameKey vars o n) n = alookup vars o := by
  induction vars with
  | nil => rfl
  | cons p l ih =>
    obtain ⟨hp, hl⟩ := hasKey_cons_false hn
    rw [renameKey, List.map_cons]
    rcases eq_or_ne p.1 o with ho | ho
    · rw [if_pos ho, alookup_cons, if_pos rfl, alookup_cons, if_pos ho]
    · rw [if_neg ho, alookup_cons, if_neg hp, alookup_cons, if_neg ho]
      exact ih hl

theorem alookup_renameKey_old (vars : List (String × Var)) (o n : String)
    (hon : o ≠ n) :
    alookup (renameKey vars o n) o = none := by
  induction vars with
  | nil => rfl
  | cons p l ih =>
    rw [renameKey, List.map_cons]
    rcases eq_or_ne p.1 o with ho | ho
    · rw [if_pos ho, alookup_cons, if_neg (Ne.symm hon)]
      exact ih
    · rw [if_neg ho, alookup_cons, if_neg ho]
      exact ih

theorem alookup_renameKey_other (vars : List (String × Var)) (o n x : String)
    (hxo : x ≠ o) (hxn : x ≠ n) :
    alookup (renameKey vars o n) x = alookup vars x := by
  induction vars with
  | nil => rfl
  | cons p l ih =>
    rw [renameKey, List.map_cons]
    rcases eq_or_ne p.1 o with ho | ho
    · rw [if_pos ho, alookup_cons, if_neg (Ne.symm hxn), alookup_cons,
        if_neg (ho ▸ Ne.symm hxo)]
      exact ih
    · rw [if_neg ho, alookup_cons, alookup_cons]
      rcases eq_or_ne p.1 x with hx | hx
      · rw [if_pos hx, if_pos hx]
      · rw [if_neg hx, if_neg hx]
        exact ih

/-- C8: for every rename-table entry `(old, new)` and each of its four name
variants, `rename_variables` (a fold of `renameVariant` over entries and
suffixes) behaves as follows at every intermediate state: when the canonical
target name already exists, the stream is left untouched (the source field
keeps its original name and the existing field is not overwritten) and a
warning is appended; otherwise a present variant is renamed to the canonical
name with uppercased suffix, moving its content, removing the old name and
leaving every other variable unchanged; when neither name is present nothing
happens. -/
theorem rename_variables_spec (ds0 : DSet) (renameDict : List (String × String))
    (acc : DSet × List String) (o n sfx : String) :
    (rename_variables renameDict ds0 =
      renameDict.foldl
        (fun a p => suffixList.foldl (fun a2 s => renameVariant a2 p.1 p.2 s) a)
        (ds0, [])) ∧
    (hasVar acc.1 (n ++ strUpper sfx) = true →
      renameVariant acc o n sfx =
        (acc.1, acc.2 ++
          ["Warning: Variable " ++ (n ++ strUpper sfx) ++
            " already exists in the dataset."])) ∧
    (hasVar acc.1 (n ++ strUpper sfx) = false → hasVar acc.1 (o ++ sfx) = true →
      (renameVariant acc o n sfx).2 = acc.2 ∧
      (renameVariant acc o n sfx).1.len = acc.1.len ∧
      lookupVar (renameVariant acc o n sfx).1 (n ++ strUpper sfx) =
        lookupVar acc.1 (o ++ sfx) ∧
      (o ++ sfx ≠ n ++ strUpper sfx →
        lookupVar (renameVariant acc o n sfx).1 (o ++ sfx) = none) ∧
      (∀ x, x ≠ o ++ sfx → x ≠ n ++ strUpper sfx →
        lookupVar (renameVariant acc o n sfx).1 x = lookupVar acc.1 x)) ∧
    (hasVar acc.1 (n ++ strUpper sfx) = false → hasVar acc.1 (o ++ sfx) = false →
      renameVariant acc o n sfx = acc) := by
  refine ⟨rfl, ?_, ?_, ?_⟩
  · intro hnew
    rw [renameVariant, if_pos hnew]
  · intro hnew hold
    rw [renameVariant]
    rw [if_neg (by rw [hnew]; exact Bool.false_ne_true), if_pos hold]
    refine ⟨rfl, rfl, ?_, ?_, ?_⟩
    · show alookup (renameKey acc.1.vars (o ++ sfx) (n ++ strUpper sfx)) (n ++ strUpper sfx) =
        alookup acc.1.vars (o ++ sfx)
      exact alookup_renameKey_new _ _ _ hnew
    · intro hne
      show alookup (renameKey acc.1.vars (o ++ sfx) (n ++ strUpper sfx)) (o ++ sfx) = none
      exact alookup_renameKey_old _ _ _ hne
    · intro x hxo hxn
      show alookup (renameKey acc.1.vars (o ++ sfx) (n ++ strUpper sfx)) x =
        alookup acc.1.vars x
      exact alookup_renameKey_other _ _ _ _ hxo hxn
  · intro hnew hold
    rw [renameVariant]
    rw [if_neg (by rw [hnew]; exact Bool.false_ne_true),
      if_neg (by rw [hold]; exact Bool.false_ne_true)]

/-- Concrete stream for exercising variable renaming: a `pressure_qc` variant
to rename, and a stream that already carries the canonical name `PRES`. -/
def dsC8 : DSet :=
  ⟨1, [("pressure_qc", ⟨[some 1], []⟩), ("temperature", ⟨[some 2], []⟩)]⟩

/-- Concrete stream already containing the canonical target name `PRES`. -/
def dsC8p : DSet :=
  ⟨1, [("PRES", ⟨[some 7], []⟩), ("pressure", ⟨[some 8], []⟩)]⟩

/-- The renaming specification instantiated concretely: `pressure_qc` is
renamed to `PRES_QC` carrying its values, and a pre-existing `PRES` blocks the
rename of `pressure` with a warning, leaving the stream untouched. -/
theorem rename_variables_spec_witness :
    lookupVar (renameVariant (dsC8, []) "pressure" "PRES" "_qc").1
      ("PRES" ++ strUpper "_qc") = some ⟨[some 1], []⟩ ∧
    renameVariant (dsC8p, []) "pressure" "PRES" "" =
      (dsC8p, ["Warning: Variable " ++ ("PRES" ++ strUpper "") ++
        " already exists in the dataset."]) := by
  constructor
  · have h := ((rename_variables_spec dsC8 [] (dsC8, []) "pressure" "PRES" "_qc").2.2.1
      (by decide) (by decide)).2.2.1
    exact h.trans (by decide)
  · exact (rename_variables_spec dsC8p [] (dsC8p, []) "pressure" "PRES" "").2.1
      (by decide)

/-!
Variable attributes: `assign_variable_attributes` (`convertOG1.py` lines
263-294) and the unit-string reformat table (`vocabularies.py` lines 18-28).
-/

/-- The unit-string reformat lookup `unit_str_format` of `vocabularies.py`. -/
def unit_str_format : List (String × String) :=
  [("m/s", "m s-1"), ("cm/s", "cm s-1"), ("S/m", "S m-1"), ("mS/cm", "mS cm-1"),
   ("meters", "m"), ("degrees_Celsius", "Celsius"), ("degreesCelsius", "Celsius"),
   ("g/m^3", "g m-3"), ("kg/m^3", "kg m-3")]

/-- Python `set.add`: append the message only when it is not already present. -/
def setAdd (s : List String) (m : String) : List String :=
  if m ∈ s then s else s ++ [m]

/-- One iteration of the inner loop of `assign_variable_attributes`, for one
vocabulary entry `(attr, new_value)` on the variable named `vn`: a missing
attribute is added; a present attribute is first reformatted through the
unit-string lookup, then compared against the expected value, and a mismatch
is recorded as a warning (the stored value is not replaced). -/
def attrStep (vn : String) (unitFormat : List (String × String))
    (st : AttrMap × List String) (kv : String × String) : AttrMap × List String :=
  match alookup st.1 kv.1 with
  | some old0 =>
      let attrs1 := match alookup unitFormat old0 with
        | some fmt => aset st.1 kv.1 fmt
        | none => st.1
      let old1 := (alookup attrs1 kv.1).getD old0
      if old1 ≠ kv.2 then
        (attrs1, setAdd st.2 ("Warning: Variable " ++ vn ++ " attribute " ++ kv.1 ++
          " mismatch: Old value: " ++ old1 ++ ", New value: " ++ kv.2))
      else (attrs1, st.2)
  | none => (aset st.1 kv.1 kv.2, st.2)

/-- Per-variable step of `assign_variable_attributes`: when the variable is in
the vocabulary table, fold `attrStep` over its vocabulary attributes and store
the updated attribute dictionary back on the variable. -/
def varAttrStep (vocabAttrs : List (String × List (String × String)))
    (unitFormat : List (String × String))
    (st : DSet × List String) (p : String × Var) : DSet × List String :=
  match alookup vocabAttrs p.1 with
  | some table =>
      let r := table.foldl (attrStep p.1 unitFormat) (p.2.attrs, st.2)
      (setVar st.1 p.1 ⟨p.2.values, r.1⟩, r.2)
  | none => st

/-- Model of `assign_variable_attributes(ds, vocab_attrs, unit_format)`:
iterate over the variables of the stream, assigning vocabulary attributes and
collecting the mismatch warnings as a deduplicated set. -/
def assign_variable_attributes (vocabAttrs : List (String × List (String × String)))
    (unitFormat : List (String × String)) (ds : DSet) : DSet × List String :=
  ds.vars.foldl (varAttrStep vocabAttrs unitFormat) (ds, [])

theorem setAdd_nodup {s : List String} {m : String} (h : s.Nodup) :
    (setAdd s m).Nodup := by
  rw [setAdd]
  by_cases hm : m ∈ s
  · rw [if_pos hm]
    exact h
  · rw [if_neg hm]
    rw [List.nodup_append]
    exact ⟨h, List.nodup_singleton m, by
      intro a ha hb
      rw [List.mem_singleton] at hb
      exact hm (hb ▸ ha)⟩

theorem attrStep_nodup (vn : String) (unitFormat : List (String × String))
    (st : AttrMap × List String) (kv : String × String) (h : st.2.Nodup) :
    (attrStep vn unitFormat st kv).2.Nodup := by
  rw [attrStep]
  rcases ha : alookup st.1 kv.1 with _ | old0
  · exact h
  · dsimp only
    rcases hf : alookup unitFormat old0 with _ | fmt <;> dsimp only <;> split
    · exact setAdd_nodup h
    · exact h
    · exact setAdd_nodup h
    · exact h

theorem foldl_attrStep_nodup (vn : String) (unitFormat : List (String × String)) :
    ∀ (table : List (String × String)) (st : AttrMap × List String), st.2.Nodup →
      (table.foldl (attrStep vn unitFormat) st).2.Nodup := by
  intro table
  induction table with
  | nil => exact fun st h => h
  | cons kv l ih =>
    intro st h
    rw [List.foldl_cons]
    exact ih _ (attrStep_nodup vn unitFormat st kv h)

theorem varAttrStep_nodup (vocabAttrs : List (String × List (String × String)))
    (unitFormat : List (String × String))
    (st : DSet × List String) (p : String × Var) (h : st.2.Nodup) :
    (varAttrStep vocabAttrs unitFormat st p).2.Nodup := by
  rw [varAttrStep]
  rcases hv : alookup vocabAttrs p.1 with _ | table
  · exact h
  · exact foldl_attrStep_nodup p.1 unitFormat table (p.2.attrs, st.2) h

theorem foldl_varAttrStep_nodup (vocabAttrs : List (String × List (String × String)))
    (unitFormat : List (String × String)) :
    ∀ (l : List (String × Var)) (st : DSet × List String), st.2.Nodup →
      (l.foldl (varAttrStep vocabAttrs unitFormat) st).2.Nodup := by
  intro l
  induction l with
  | nil => exact fun st h => h
  | cons p l ih =>
    intro st h
    rw [List.foldl_cons]
    exact ih _ (varAttrStep_nodup vocabAttrs unitFormat st p h)

/-- C9: `assign_variable_attributes` (a fold of `attrStep` over every
vocabulary attribute of every tabulated variable) adds each vocabulary
attribute missing on the field; an attribute already present keeps its value
(after unit-string reformatting) rather than taking the vocabulary value, and
when that kept value differs from the expected one the mismatch message is
added to the warning set without duplicates; the warning list of a full run
contains no duplicate message. -/
theorem assign_variable_attributes_spec
    (vocabAttrs : List (String × List (String × String)))
    (unitFormat : List (String × String)) (ds : DSet)
    (st : AttrMap × List String) (vn : String) (kv : String × String) :
    (assign_variable_attributes vocabAttrs unitFormat ds =
      ds.vars.foldl (varAttrStep vocabAttrs unitFormat) (ds, [])) ∧
    (alookup st.1 kv.1 = none →
      attrStep vn unitFormat st kv = (aset st.1 kv.1 kv.2, st.2)) ∧
    (∀ old0, alookup st.1 kv.1 = some old0 →
      ∀ old1, old1 = (match alookup unitFormat old0 with
        | some fmt => fmt
        | none => old0) →
      alookup (attrStep vn unitFormat st kv).1 kv.1 = some old1 ∧
      (old1 ≠ kv.2 →
        (attrStep vn unitFormat st kv).2 = setAdd st.2
          ("Warning: Variable " ++ vn ++ " attribute " ++ kv.1 ++
            " mismatch: Old value: " ++ old1 ++ ", New value: " ++ kv.2)) ∧
      (old1 = kv.2 → (attrStep vn unitFormat st kv).2 = st.2)) ∧
    (assign_variable_attributes vocabAttrs unitFormat ds).2.Nodup := by
  refine ⟨rfl, ?_, ?_, ?_⟩
  · intro hnone
    rw [attrStep, hnone]
  · intro old0 h0 old1 h1
    rw [attrStep, h0]
    dsimp only
    rcases hf : alookup unitFormat old0 with _ | fmt
    · rw [hf] at h1
      dsimp only
      have hkeep : alookup st.1 kv.1 = some old1 := h1 ▸ h0
      have hgetD : (alookup st.1 kv.1).getD old0 = old1 := by
        rw [hkeep]
        rfl
      rw [hgetD]
      rcases eq_or_ne old1 kv.2 with he | he
      · rw [if_neg (by simpa using he)]
        exact ⟨hkeep, fun hc => absurd he hc, fun _ => rfl⟩
      · rw [if_pos he]
        exact ⟨hkeep, fun _ => rfl, fun hc => absurd hc he⟩
    · rw [hf] at h1
      dsimp only
      have hkeep : alookup (aset st.1 kv.1 fmt) kv.1 = some old1 := by
        rw [alookup_aset, if_pos rfl, h1]
      have hgetD : (alookup (aset st.1 kv.1 fmt) kv.1).getD old0 = old1 := by
        rw [hkeep]
        rfl
      rw [hgetD]
      rcases eq_or_ne old1 kv.2 with he | he
      · rw [if_neg (by simpa using he)]
        exact ⟨hkeep, fun hc => absurd he hc, fun _ => rfl⟩
      · rw [if_pos he]
        exact ⟨hkeep, fun _ => rfl, fun hc => absurd hc he⟩
  · exact foldl_varAttrStep_nodup vocabAttrs unitFormat ds.vars (ds, [])
      List.nodup_nil

/-- Concrete vocabulary table for exercising attribute assignment. -/
def vocabC9 : List (String × List (String × String)) :=
  [("TEMP", [("units", "Celsius"), ("long_name", "temperature")])]

/-- Concrete stream whose TEMP variable has a reformatable unit attribute. -/
def dsC9 : DSet :=
  ⟨1, [("TEMP", ⟨[some 14], [("units", "degrees_Celsius")]⟩)]⟩

/-- The attribute-assignment specification instantiated concretely: a missing
attribute is appended, a present mismatching attribute keeps its reformatted
value and yields one deduplicated warning, and a full run produces a
duplicate-free warning list. -/
theorem assign_variable_attributes_spec_witness :
    attrStep "TEMP" unit_str_format ([], []) ("long_name", "temperature") =
      ([("long_name", "temperature")], []) ∧
    alookup (attrStep "TEMP" unit_str_format ([("units", "cm/s")], [])
      ("units", "m s-1")).1 "units" = some "cm s-1" ∧
    (attrStep "TEMP" unit_str_format ([("units", "cm/s")], [])
      ("units", "m s-1")).2 =
      ["Warning: Variable TEMP attribute units mismatch: Old value: cm s-1, New value: m s-1"] ∧
    (assign_variable_attributes vocabC9 unit_str_format dsC9).2.Nodup := by
  refine ⟨?_, ?_, ?_, ?_⟩
  · exact ((assign_variable_attributes_spec vocabC9 unit_str_format dsC9
      ([], []) "TEMP" ("long_name", "temperature")).2.1 (by decide))
  · exact ((assign_variable_attributes_spec vocabC9 unit_str_format dsC9
      ([("units", "cm/s")], []) "TEMP" ("units", "m s-1")).2.2.1 "cm/s" (by decide)
      "cm s-1" (by decide)).1
  · exact (((assign_variable_attributes_spec vocabC9 unit_str_format dsC9
      ([("units", "cm/s")], []) "TEMP" ("units", "m s-1")).2.2.1 "cm/s" (by decide)
      "cm s-1" (by decide)).2.1 (by decide)).trans (by decide)
  · exact (assign_variable_attributes_spec vocabC9 unit_str_format dsC9
      ([], []) "TEMP" ("units", "Celsius")).2.2.2

/-!
Unit conversion: `convert_units` (`convertOG1.py` lines 296-324) and the
conversion tables of `vocabularies.py` (lines 14-15 and 31-53).
-/

/-- A Python value stored in a conversion-table entry: a string or a number. -/
inductive PyV where
  | s (v : String)
  | q (v : ℚ)
deriving DecidableEq, Repr

/-- The preferred-units allow-list `preferred_units` of `vocabularies.py`. -/
def preferred_units : List String := ["m s-1", "dbar", "S m-1"]

/-- The conversion table `unit1_to_unit2` of `vocabularies.py`: each key is a
`current_to_new` pair string and each entry has fields `current_unit`,
`new_unit` and `factor` (there is no `units_name` field). -/
def unit1_to_unit2 : List (String × List (String × PyV)) :=
  [("cm s-1_to_m s-1", [("current_unit", PyV.s "cm s-1"), ("new_unit", PyV.s "m s-1"),
      ("factor", PyV.q (Rat.divInt 1 100))]),
   ("cm/s_to_m/s", [("current_unit", PyV.s "cm/s"), ("new_unit", PyV.s "m/s"),
      ("factor", PyV.q (Rat.divInt 1 100))]),
   ("m/s_to_cm/s", [("current_unit", PyV.s "m/s"), ("new_unit", PyV.s "cm/s"),
      ("factor", PyV.q 100)]),
   ("m s-1_to_cm s-1", [("current_unit", PyV.s "m s-1"), ("new_unit", PyV.s "cm s-1"),
      ("factor", PyV.q 100)]),
   ("S/m_to_mS/cm", [("current_unit", PyV.s "S/m"), ("new_unit", PyV.s "mS/cm"),
      ("factor", PyV.q (Rat.divInt 1 10))]),
   ("S m-1_to_mS cm-1", [("current_unit", PyV.s "S m-1"), ("new_unit", PyV.s "mS cm-1"),
      ("factor", PyV.q (Rat.divInt 1 10))]),
   ("mS/cm_to_S/m", [("current_unit", PyV.s "mS/cm"), ("new_unit", PyV.s "S/m"),
      ("factor", PyV.q 10)]),
   ("mS cm-1_to_S m-1", [("current_unit", PyV.s "mS cm-1"), ("new_unit", PyV.s "S m-1"),
      ("factor", PyV.q 10)]),
   ("dbar_to_Pa", [("current_unit", PyV.s "dbar"), ("new_unit", PyV.s "Pa"),
      ("factor", PyV.q 10000)]),
   ("Pa_to_dbar", [("current_unit", PyV.s "Pa"), ("new_unit", PyV.s "dbar"),
      ("factor", PyV.q (Rat.divInt 1 10000))]),
   ("dbar_to_kPa", [("current_unit", PyV.s "dbar"), ("new_unit", PyV.s "kPa"),
      ("factor", PyV.q 10)]),
   ("degreesCelsius_to_Celsius", [("current_unit", PyV.s "degreesCelsius"),
      ("new_unit", PyV.s "Celsius"), ("factor", PyV.q 1)]),
   ("Celsius_to_degreesCelsius", [("current_unit", PyV.s "Celsius"),
      ("new_unit", PyV.s "degreesCelsius"), ("factor", PyV.q 1)]),
   ("m_to_cm", [("current_unit", PyV.s "m"), ("new_unit", PyV.s "cm"),
      ("factor", PyV.q 100)]),
   ("m_to_km", [("current_unit", PyV.s "m"), ("new_unit", PyV.s "km"),
      ("factor", PyV.q (Rat.divInt 1 1000))]),
   ("cm_to_m", [("current_unit", PyV.s "cm"), ("new_unit", PyV.s "m"),
      ("factor", PyV.q (Rat.divInt 1 100))]),
   ("km_to_m", [("current_unit", PyV.s "km"), ("new_unit", PyV.s "m"),
      ("factor", PyV.q 1000)]),
   ("g/m^3_to_kg/m^3", [("current_unit", PyV.s "g/m3"), ("new_unit", PyV.s "kg/m3"),
      ("factor", PyV.q (Rat.divInt 1 1000))]),
   ("g m-3_to_kg m-3", [("current_unit", PyV.s "g m-3"), ("new_unit", PyV.s "kg m-3"),
      ("factor", PyV.q (Rat.divInt 1 1000))]),
   ("kg/m^3_to_g/m^3", [("current_unit", PyV.s "kg/m3"), ("new_unit", PyV.s "g/m3"),
      ("factor", PyV.q 1000)]),
   ("kg m-3_to_g m-3", [("current_unit", PyV.s "kg m-3"), ("new_unit", PyV.s "g m-3"),
      ("factor", PyV.q 1000)])]

/-- The attribute names defined at module scope by `vocabularies.py`; the
default argument `vocabularies.unit_conversion` of `convert_units` refers to a
name that is not among them, so evaluating the default raises AttributeError
when the module is imported. -/
def vocabulariesModuleAttrs : List String :=
  ["yaml", "pathlib", "os", "script_dir", "parent_dir", "rootdir", "config_dir",
   "dims_rename_dict", "preferred_units", "unit_str_format", "unit1_to_unit2",
   "vars_to_remove", "vars_as_is", "standard_names", "vocab_attrs", "sensor_vocabs",
   "contrib_to_append", "order_of_attr", "global_attrs"]

/-- Model of the body of `convert_units(ds, preferred_units, unit_conversion)`:
for every variable whose declared unit is a key of the table, read the entry
field `units_name` (KeyError when absent), and when that target unit is in the
allow-list multiply the values by the entry factor and overwrite the unit
attribute (xarray multiplication drops the other attributes). -/
def convert_units (preferredUnits : List String)
    (unitConversion : List (String × List (String × PyV))) (ds : DSet) :
    Except String DSet :=
  ds.vars.foldlM (fun (acc : DSet) p =>
    match alookup p.2.attrs "units" with
    | some u =>
      match alookup unitConversion u with
      | some info => do
          let newUnit ← match alookup info "units_name" with
            | some (PyV.s nu) => Except.ok nu
            | _ => Except.error "KeyError: units_name"
          if newUnit ∈ preferredUnits then do
            let factor ← match alookup info "factor" with
              | some (PyV.q f) => Except.ok f
              | _ => Except.error "KeyError: factor"
            Except.ok (setVar acc p.1
              ⟨p.2.values.map (Option.map (fun v => qmul v factor)), [("units", newUnit)]⟩)
          else Except.ok acc
      | none => Except.ok acc
    | none => Except.ok acc) ds

/-- A stream with a velocity variable declared in `cm s-1`, for which the
claimed conversion to `m s-1` (a preferred unit) should fire. -/
def dsC4cm : DSet := ⟨2, [("U", ⟨[some 100, some 200], [("units", "cm s-1")]⟩)]⟩

/-- A stream whose unit attribute coincides with a key of `unit1_to_unit2`,
the only way the key test of `convert_units` can succeed with this table. -/
def dsC4key : DSet := ⟨1, [("U", ⟨[some 100], [("units", "cm s-1_to_m s-1")]⟩)]⟩

/-- C4: the unit conversion cannot behave as claimed. The module
`vocabularies` defines no attribute `unit_conversion`, so the default argument
of `convert_units` raises AttributeError; the table actually provided,
`unit1_to_unit2`, is keyed by `current_to_new` pair strings and not by unit
strings, so a variable declared in `cm s-1` is left unchanged; and no table
entry carries the `units_name` field read by the body, so whenever the key
test does fire the body raises KeyError. -/
theorem convert_units_bug :
    vocabulariesModuleAttrs.contains "unit_conversion" = false ∧
    hasKey unit1_to_unit2 "cm s-1" = false ∧
    (∀ p, p ∈ unit1_to_unit2 → alookup p.2 "units_name" = none) ∧
    convert_units preferred_units unit1_to_unit2 dsC4cm = Except.ok dsC4cm ∧
    convert_units preferred_units unit1_to_unit2 dsC4key =
      Except.error "KeyError: units_name" := by
  refine ⟨rfl, rfl, ?_, rfl, rfl⟩
  decide

/-- The missing-field divergence instantiated at the first table entry. -/
theorem convert_units_bug_witness :
    alookup (unit1_to_unit2.getD 0 ("", [])).2 "units_name" = none :=
  convert_units_bug.2.2.1 (unit1_to_unit2.getD 0 ("", [])) (by decide)

/-!
Metadata reconciliation: `update_dataset_attributes`, `get_contributors`,
`get_time_attributes`, `extract_attr_to_keep`, `extract_attr_to_rename`
(`convertOG1.py` lines 520-725) with the tables of `attr_input.py`. Dataset
attributes are modelled as string-valued dictionaries (the numeric-timestamp
branch of `get_time_attributes` is outside the model), and the wall clock
read by `datetime.now()` is passed explicitly as `now`.
-/

/-- Prefix test on character lists. -/
def isPrefixList : List Char → List Char → Bool
  | [], _ => true
  | _ :: _, [] => false
  | a :: l1, b :: l2 => a == b && isPrefixList l1 l2

/-- Occurrence test on character lists (`sub in s` for strings). -/
def containsList : List Char → List Char → Bool
  | [], sub => sub.isEmpty
  | c :: t, sub => isPrefixList sub (c :: t) || containsList t sub

/-- Python substring containment `sub in s`. -/
def strContains (s sub : String) : Bool := containsList s.data sub.data

/-- Python `s.replace(',', '-')`. -/
def replaceComma (s : String) : String :=
  ⟨s.data.map (fun c => if c = ',' then '-' else c)⟩

/-- The inner helper `create_or_append_list` of `get_contributors`: append the
item (with commas replaced by hyphens) unless it is already in the list. -/
def create_or_append_list (l : List String) (x : String) : List String :=
  if x ∈ l then l else l ++ [replaceComma x]

/-- The inner helper `list_to_comma_separated_string`: plain `', '.join`. -/
def commaJoin : List String → String
  | [] => ""
  | [x] => x
  | x :: y :: t => x ++ ", " ++ commaJoin (y :: t)

/-- Python `attrs.get(k, dflt)`. -/
def getAttr (attrs : AttrMap) (k : String) (dflt : String) : String :=
  (alookup attrs k).getD dflt

/-- The names/emails/roles/roles-vocabulary lists of `get_contributors`, when
the branches of lines 587-601 define them; `none` models the case where the
local variables are never assigned. -/
def namesQuad (attrs : AttrMap) :
    Option (List String × List String × List String × List String) :=
  if hasKey attrs "creator_name" then
    let names0 := create_or_append_list [] (getAttr attrs "creator_name" "")
    let emails0 := create_or_append_list [] (getAttr attrs "creator_email" "")
    let roles0 := create_or_append_list [] (getAttr attrs "creator_role" "PI")
    let rolesV0 := create_or_append_list []
      (getAttr attrs "creator_role_vocabulary" "http://vocab.nerc.ac.uk/search_nvs/W08")
    if hasKey attrs "contributor_name" then
      some (create_or_append_list names0 (getAttr attrs "contributor_name" ""),
        create_or_append_list emails0 (getAttr attrs "contributor_email" ""),
        create_or_append_list roles0 (getAttr attrs "contributor_role" "PI"),
        create_or_append_list rolesV0
          (getAttr attrs "contributor_role_vocabulary" "http://vocab.nerc.ac.uk/search_nvs/W08"))
    else some (names0, emails0, roles0, rolesV0)
  else if hasKey attrs "contributor_name" then
    some (create_or_append_list [] (getAttr attrs "contributor_name" ""),
      create_or_append_list [] (getAttr attrs "contributor_email" ""),
      create_or_append_list [] (getAttr attrs "contributor_role" "PI"),
      create_or_append_list []
        (getAttr attrs "contributor_role_vocabulary" "http://vocab.nerc.ac.uk/search_nvs/W08"))
  else none

/-- The institution-related lists of `get_contributors` (lines 602-611), when
defined. -/
def instsQuad (attrs : AttrMap) :
    Option (List String × List String × List String × List String) :=
  if hasKey attrs "contributing_institutions" then
    some (create_or_append_list [] (getAttr attrs "contributing_institutions" ""),
      create_or_append_list [] (getAttr attrs "contributing_institutions_role" "Operator"),
      create_or_append_list []
        (getAttr attrs "contributing_institutions_vocabulary" "https://edmo.seadatanet.org/report/1434"),
      create_or_append_list []
        (getAttr attrs "contributing_institutions_role_vocabulary" "http://vocab.nerc.ac.uk/collection/W08/current/"))
  else if hasKey attrs "institution" then
    some (create_or_append_list [] (getAttr attrs "institution" ""),
      create_or_append_list [] (getAttr attrs "contributing_institutions_role" "PI"),
      create_or_append_list []
        (getAttr attrs "contributing_institutions_vocabulary" "https://edmo.seadatanet.org/report/1434"),
      create_or_append_list []
        (getAttr attrs "contributing_institutions_role_vocabulary" "http://vocab.nerc.ac.uk/collection/W08/current/"))
  else none

/-- The specific-institution rewrite of lines 614-616. -/
def fixInst (inst : String) : String :=
  if strContains inst "Oceanography" && strContains inst "University" &&
      strContains inst "Washington"
  then "University of Washington - School of Oceanography" else inst

/-- List padding with empty strings up to the names length (lines 620-626). -/
def padTo (l : List String) (n : Nat) : List String :=
  l ++ List.replicate (n - l.length) ""

/-- The eight contributor lists as carried through lines 628-646. -/
structure Contribs where
  names : List String
  emails : List String
  roles : List String
  rolesVocab : List String
  insts : List String
  instRoles : List String
  instVocab : List String
  instRolesVocab : List String
deriving DecidableEq, Repr

/-- One iteration of the values_to_append loop (lines 630-646). -/
def appendContrib (c : Contribs) (kv : String × String) : Contribs :=
  if kv.1 = "contributor_name" then
    { c with names := create_or_append_list c.names kv.2 }
  else if kv.1 = "contributor_email" then
    { c with emails := create_or_append_list c.emails kv.2 }
  else if kv.1 = "contributor_role" then
    { c with roles := create_or_append_list c.roles kv.2 }
  else if kv.1 = "contributor_role_vocabulary" then
    { c with rolesVocab := create_or_append_list c.rolesVocab kv.2 }
  else if kv.1 = "contributing_institutions" then
    { c with insts := create_or_append_list c.insts kv.2 }
  else if kv.1 = "contributing_institutions_role" then
    { c with instRoles := create_or_append_list c.instRoles kv.2 }
  else if kv.1 = "contributing_institutions_vocabulary" then
    { c with instVocab := create_or_append_list c.instVocab kv.2 }
  else if kv.1 = "contributing_institutions_role_vocabulary" then
    { c with instRolesVocab := create_or_append_list c.instRolesVocab kv.2 }
  else c

/-- Model of `get_contributors(ds, values_to_append)`. The institution list is
referenced first (the rewrite loop of line 614), then the names list (the
padding of lines 619-626); a branch set that never assigned them raises
NameError there. -/
def get_contributors (attrs : AttrMap)
    (valuesToAppend : Option (List (String × String))) : Except String AttrMap := do
  let iq1 ← match instsQuad attrs with
    | some q => Except.ok (q.1.map fixInst, q.2.1, q.2.2.1, q.2.2.2)
    | none => Except.error "NameError: name insts is not defined"
  let nq1 ← match namesQuad attrs with
    | some q => Except.ok q
    | none => Except.error "NameError: name names is not defined"
  let m := nq1.1.length
  let c0 : Contribs := ⟨nq1.1, padTo nq1.2.1 m, padTo nq1.2.2.1 m, padTo nq1.2.2.2 m,
    padTo iq1.1 m, padTo iq1.2.1 m, padTo iq1.2.2.1 m, padTo iq1.2.2.2 m⟩
  let c := match valuesToAppend with
    | some l => l.foldl appendContrib c0
    | none => c0
  Except.ok [("contributor_name", commaJoin c.names),
    ("contributor_email", commaJoin c.emails),
    ("contributor_role", commaJoin c.roles),
    ("contributor_role_vocabulary", commaJoin c.rolesVocab),
    ("contributing_institutions", commaJoin c.insts),
    ("contributing_institutions_role", commaJoin c.instRoles),
    ("contributing_institutions_vocabulary", commaJoin c.instVocab),
    ("contributing_institutions_role_vocabulary", commaJoin c.instRolesVocab)]

/-- The time attributes scanned by `get_time_attributes`. -/
def timeAttrList : List String :=
  ["time_coverage_start", "time_coverage_end", "date_created", "start_time"]

/-- Removal of every occurrence of a character. -/
def stripCharAll (s : List Char) (c : Char) : List Char := s.filter (fun a => a != c)

/-- Python `s.rstrip('Z')`. -/
def rstripZ (s : List Char) : List Char := (s.reverse.dropWhile (fun a => a == 'Z')).reverse

/-- The inner helper `clean_time_string`. -/
def clean_time_string (s : String) : String :=
  ⟨stripCharAll (rstripZ (stripCharAll (stripCharAll s.data '_') ':')) '-'⟩

/-- Model of `get_time_attributes(ds)` with the `datetime.now()` reading
passed as `now`; raises KeyError when neither a start time nor
`time_coverage_start` is available. -/
def get_time_attributes (attrs : AttrMap) (now : String) : Except String AttrMap := do
  let t0 := timeAttrList.foldl (fun acc a =>
    match alookup attrs a with
    | some v => aset acc a
        (if strContains v "-" || strContains v ":" then clean_time_string v else v)
    | none => acc) []
  let t1 := aset t0 "date_modified" now
  let t2 := match alookup t1 "start_time" with
    | some v => aset (adrop t1 "start_time") "start_date" v
    | none => t1
  if hasKey t2 "start_date" then Except.ok t2
  else match alookup t2 "time_coverage_start" with
    | some v => Except.ok (aset t2 "start_date" v)
    | none => Except.error "KeyError: time_coverage_start"

/-- The table `attr_to_add` of `attr_input.py`. -/
def attr_to_add : AttrMap :=
  [("title", "OceanGliders trajectory file"),
   ("platform", "sub-surface gliders"),
   ("platform_vocabulary", "https://vocab.nerc.ac.uk/collection/L06/current/27"),
   ("featureType", "trajectoryProfile"),
   ("Conventions", "CF-1.10,OG-1.0"),
   ("rtqc_method", "No QC applied"),
   ("rtqc_method_doi", "n/a"),
   ("doi", ""),
   ("data_url", "")]

/-- The list `attr_as_is` of `attr_input.py`. -/
def attr_as_is : List String :=
  ["naming_authority", "institution", "project",
   "geospatial_lat_min", "geospatial_lat_max", "geospatial_lon_min",
   "geospatial_lon_max", "geospatial_vertical_min", "geospatial_vertical_max",
   "license", "keywords", "keywords_vocabulary", "file_version",
   "acknowledgment", "date_created", "disclaimer"]

/-- The table `attr_to_rename` of `attr_input.py` (new name to old name). -/
def attr_to_rename : List (String × String) :=
  [("site", "summary"), ("uri", "uuid"), ("uri_comment", "UUID"),
   ("comment", "history")]

/-- The ordering list `order_of_attr` of `attr_input.py`. -/
def order_of_attr : List String :=
  ["title", "platform", "platform_vocabulary", "id", "naming_authority",
   "institution", "internal_mission_identifier", "geospatial_lat_min",
   "geospatial_lat_max", "geospatial_lon_min", "geospatial_lon_max",
   "geospatial_vertical_min", "geospatial_vertical_max", "time_coverage_start",
   "time_coverage_end", "site", "site_vocabulary", "program",
   "program_vocabulary", "project", "network", "contributor_name",
   "contributor_email", "contributor_id", "contributor_role_vocabular",
   "contributing_institutions", "contributing_institutions_vocabulary",
   "contributing_institutions_role", "contributing_institutions_role_vocabulary",
   "uri", "data_url", "doi", "rtqc_method", "rtqc_method_doi", "web_link",
   "comment", "start_date", "date_created", "featureType", "Conventions"]

/-- The dictionary `contrib_to_append` of `attr_input.py`. -/
def contrib_to_append : List (String × String) :=
  [("contributor_name", "Eleanor Frajka-Williams"),
   ("contributor_email", "eleanorfrajka@gmail.com"),
   ("contributor_role", "Data scientist"),
   ("contributor_role_vocabulary", "http://vocab.nerc.ac.uk/search_nvs/W08"),
   ("contributing_institutions", "University of Hamburg - Institute of Oceanography"),
   ("contributing_institutions_vocabulary", "https://edmo.seadatanet.org/report/1156"),
   ("contributing_institutions_role", "Data scientist"),
   ("contributing_institutions_role_vocabulary", "http://vocab.nerc.ac.uk/search_nvs/W08")]

/-- Model of `extract_attr_to_keep(ds1, attr_as_is)`. -/
def extract_attr_to_keep (attrs : AttrMap) (asIs : List String) : AttrMap :=
  asIs.foldl (fun acc a =>
    match alookup attrs a with
    | some v => aset acc a v
    | none => acc) []

/-- Model of `extract_attr_to_rename(ds1, attr_to_rename)`. -/
def extract_attr_to_rename (attrs : AttrMap) (toRename : List (String × String)) :
    AttrMap :=
  toRename.foldl (fun acc p =>
    match alookup attrs p.2 with
    | some v => aset acc p.1 v
    | none => acc) []

/-- Python `{**d1, **d2, ...}` dictionary merge: first insertion fixes the
position of a key, later occurrences update its value in place. -/
def mergeDicts (ls : List AttrMap) : AttrMap :=
  ls.foldl (fun acc l => l.foldl (fun a p => aset a p.1 p.2) acc) []

/-- Model of `update_dataset_attributes(ds, contrib_to_append)` with the
wall clock passed as `now`: combine the contributor, time, renamed and
retained attributes with `attr_to_add` (spread twice), then order them by
`order_of_attr` followed by the leftovers in insertion order. -/
def update_dataset_attributes (attrs : AttrMap)
    (contribToAppend : Option (List (String × String))) (now : String) :
    Except String AttrMap := do
  let contribAttrs ← get_contributors attrs contribToAppend
  let timeAttrs ← get_time_attributes attrs now
  let renamedAttrs := extract_attr_to_rename attrs attr_to_rename
  let keepAttrs := extract_attr_to_keep attrs attr_as_is
  let newAttributes := mergeDicts
    [attr_to_add, contribAttrs, timeAttrs, renamedAttrs, keepAttrs, attr_to_add]
  let ordered := order_of_attr.foldl (fun acc a =>
    match alookup newAttributes a with
    | some v => aset acc a v
    | none => acc) []
  Except.ok (newAttributes.foldl
    (fun acc p => if hasKey acc p.1 then acc else aset acc p.1 p.2) ordered)

/-- C10: on a metadata set carrying no contributor identity — no
creator_name/contributor_name pair, or no contributing_institutions/
institution pair — `get_contributors` stops with a NameError (the institution
or name lists are referenced without ever being assigned), and
`update_dataset_attributes` propagates that same unhandled error. -/
theorem get_contributors_name_error (attrs : AttrMap)
    (toAppend : Option (List (String × String))) (now : String)
    (h : (hasKey attrs "creator_name" = false ∧
          hasKey attrs "contributor_name" = false) ∨
         (hasKey attrs "contributing_institutions" = false ∧
          hasKey attrs "institution" = false)) :
    ∃ msg, get_contributors attrs toAppend = Except.error msg ∧
      update_dataset_attributes attrs toAppend now = Except.error msg := by
  have main : ∃ msg, get_contributors attrs toAppend = Except.error msg := by
    rcases h with ⟨h1, h2⟩ | ⟨h1, h2⟩
    · have hn : namesQuad attrs = none := by
        rw [namesQuad, if_neg (by rw [h1]; exact Bool.false_ne_true),
          if_neg (by rw [h2]; exact Bool.false_ne_true)]
      rcases hi : instsQuad attrs with _ | q
      · refine ⟨"NameError: name insts is not defined", ?_⟩
        rw [get_contributors, hi]
        rfl
      · refine ⟨"NameError: name names is not defined", ?_⟩
        rw [get_contributors, hi, hn]
        rfl
    · have hi : instsQuad attrs = none := by
        rw [instsQuad, if_neg (by rw [h1]; exact Bool.false_ne_true),
          if_neg (by rw [h2]; exact Bool.false_ne_true)]
      refine ⟨"NameError: name insts is not defined", ?_⟩
      rw [get_contributors, hi]
      rfl
  obtain ⟨msg, hmsg⟩ := main
  refine ⟨msg, hmsg, ?_⟩
  rw [update_dataset_attributes, hmsg]
  rfl

/-- The NameError instantiated at an attribute set with no contributor
identity at all. -/
theorem get_contributors_name_error_witness :
    ∃ msg, get_contributors [] (some contrib_to_append) = Except.error msg ∧
      update_dataset_attributes [] (some contrib_to_append) "20240101T000000" =
        Except.error msg :=
  get_contributors_name_error [] (some contrib_to_append) "20240101T000000"
    (Or.inl ⟨by decide, by decide⟩)

/-- A metadata set with both a creator and a contributor: re-parsing the
reconciled output mangles the comma-separated contributor list. -/
def dsC5attrs : AttrMap :=
  [("creator_name", "Alice Smith"), ("contributor_name", "Bob Jones"),
   ("institution", "UW"), ("time_coverage_start", "20040920T000000")]

/-- A fixed wall-clock reading shared by repeated reconciler runs. -/
def nowC5 : String := "20240101T000000"

/-- First reconciler output on the two-contributor metadata set. -/
def a1C5 : AttrMap :=
  (update_dataset_attributes dsC5attrs (some contrib_to_append) nowC5).toOption.getD []

/-- Applying the reconciler to its own output changes it: the output
contributor_name "Alice Smith, Bob Jones, Eleanor Frajka-Williams" is
re-parsed as a single name whose commas are replaced by hyphens, and the
appended contributor is appended again. -/
theorem update_dataset_attributes_cex :
    (update_dataset_attributes dsC5attrs (some contrib_to_append) nowC5).toOption =
      some a1C5 ∧
    (update_dataset_attributes a1C5 (some contrib_to_append) nowC5).toOption ≠
      some a1C5 := by
  constructor
  · rfl
  · decide

/-- A single-creator metadata set on which the reconciler does reach a fixed
point under a fixed clock. -/
def dsC5ok : AttrMap :=
  [("creator_name", "Alice Smith"), ("institution", "UW"),
   ("time_coverage_start", "20040920T000000")]

/-- First reconciler output on the single-creator metadata set. -/
def a1C5ok : AttrMap :=
  (update_dataset_attributes dsC5ok none nowC5).toOption.getD []

set_option maxHeartbeats 2000000 in
/-- C5 (amended): with the wall clock held fixed and no contributor values to
append, the reconciler is idempotent on the single-creator metadata set:
applied to its own output it returns it unchanged. In general idempotence
fails (see the two-contributor counterexample). -/
theorem update_dataset_attributes_spec (a1 : AttrMap)
    (h : (update_dataset_attributes dsC5ok none nowC5).toOption = some a1) :
    (update_dataset_attributes a1 none nowC5).toOption = some a1 := by
  have h0 : (update_dataset_attributes dsC5ok none nowC5).toOption = some a1C5ok := by
    decide
  rw [h0] at h
  injection h with h1
  subst h1
  decide

/-- The idempotence theorem instantiated at the first output itself. -/
theorem update_dataset_attributes_spec_witness :
    (update_dataset_attributes a1C5ok none nowC5).toOption = some a1C5ok :=
  update_dataset_attributes_spec a1C5ok rfl

/-!
The full pipeline: `process_dataset` (`convertOG1.py` lines 66-153) with
`split_by_unique_dims`, `extract_variables`, `rename_dimensions`, `calc_Z`
and `add_dive_number` (lines 155-234 and 371-416). The YAML-loaded tables
(`standard_names`, `vocab_attrs`) and the external `gsw.z_from_p` are not in
the repository sources and are passed as parameters.
-/

/-- A raw basestation variable: dimension names, values and attributes. -/
structure RawVar where
  dims : List String
  values : List Val
  attrs : AttrMap
deriving DecidableEq, Repr

/-- A raw basestation dataset with Python-valued global attributes. -/
structure RawDSet where
  vars : List (String × RawVar)
  attrs : List (String × PyV)
deriving DecidableEq, Repr

/-- Selection of one dimension group of `split_by_unique_dims`; the KeyError
models subscripting the split dictionary with an absent dimension tuple. -/
def split_group (r : RawDSet) (dims : List String) :
    Except String (List (String × RawVar)) :=
  match r.vars.filter (fun p => p.2.dims == dims) with
  | [] => Except.error ("KeyError: dims " ++ String.intercalate "," dims)
  | g => Except.ok g

/-- A dimension group viewed as a measurement stream. -/
def groupToDSet (g : List (String × RawVar)) : DSet :=
  ⟨((g.head?).map (fun p => p.2.values.length)).getD 0,
   g.map (fun p => (p.1, ⟨p.2.values, p.2.attrs⟩))⟩

/-- The table `dims_rename_dict` of `vocabularies.py`. -/
def dims_rename_dict : List (String × String) := [("sg_data_point", "N_MEASUREMENTS")]

/-- Model of `rename_dimensions(ds, rename_dict)` on a dimension group. -/
def rename_dimensions (renameDict : List (String × String))
    (g : List (String × RawVar)) : List (String × RawVar) :=
  g.map (fun p => (p.1, ⟨p.2.dims.map (fun d => (alookup renameDict d).getD d),
    p.2.values, p.2.attrs⟩))

/-- Python `s.startswith(pre)`. -/
def strStartsWith (s pre : String) : Bool := isPrefixList pre.data s.data

/-- Fuelled removal of every occurrence of a pattern from a character list
(`s.replace(pat, '')`); fuel is the length of the scanned list. -/
def removeSubF : Nat → List Char → List Char → List Char
  | 0, s, _ => s
  | _ + 1, [], _ => []
  | fuel + 1, c :: t, pat =>
    if !pat.isEmpty && isPrefixList pat (c :: t) then
      removeSubF fuel (List.drop (pat.length - 1) t) pat
    else c :: removeSubF fuel t pat

/-- Python `s.replace(pat, '')`. -/
def strRemoveAll (s pat : String) : String := ⟨removeSubF s.data.length s.data pat.data⟩

/-- Model of `extract_variables(ds)`: split the dimensionless variables into
the `sg_cal` group (prefix removed), the `log_` group and the rest, returned
as `(sg_cal, dc_log, dc_other)`. -/
def extract_variables (g : List (String × RawVar)) :
    List (String × RawVar) × List (String × RawVar) × List (String × RawVar) :=
  let sgCalVars := g.filter (fun p => strStartsWith p.1 "sg_cal")
  let dcOther0 := g.filter (fun p => !(strStartsWith p.1 "sg_cal"))
  (sgCalVars.map (fun p => (strRemoveAll p.1 "sg_cal_", p.2)),
   dcOther0.filter (fun p => strStartsWith p.1 "log_"),
   dcOther0.filter (fun p => !(strStartsWith p.1 "log_")))

/-- Model of `add_dive_number(ds, dive_number)` with the dive number taken
from the dataset attributes. -/
def add_dive_number (ds : DSet) (d : Val) : DSet :=
  setVar ds "divenum" ⟨List.replicate ds.len d, []⟩

/-- Model of `calc_Z(ds)`: require PRES, LATITUDE and LONGITUDE, then store
`DEPTH_Z = z_from_p(PRES, LATITUDE)` (the external gsw conversion is the
parameter `zfromp`). -/
def calc_Z (zfromp : Val → Val → Val) (ds : DSet) : Except String DSet :=
  match lookupVar ds "PRES", lookupVar ds "LATITUDE", lookupVar ds "LONGITUDE" with
  | some pres, some lat, some _ =>
      Except.ok (setVar ds "DEPTH_Z"
        ⟨(List.zip pres.values lat.values).map (fun pr => zfromp pr.1 pr.2),
         [("units", "meters"), ("positive", "up"), ("standard_name", "depth"),
          ("comment", "Depth calculated from pressure using gsw library, positive up.")]⟩)
  | _, _, _ =>
      Except.error "ValueError: Dataset must contain PRES, LATITUDE, and LONGITUDE variables."

/-- The final drop block of `process_dataset` (lines 147-151): remove the
variables `time` and `TIME_GPS` when present. -/
def finalDrops (ds : DSet) : DSet :=
  let ds5 := if hasVar ds "time" then dropVar ds "time" else ds
  if hasVar ds5 "TIME_GPS" then dropVar ds5 "TIME_GPS" else ds5

/-- Line 109: `ds1.attrs['dive_number']` as a numeric value (KeyError when
absent; the non-numeric case is a type error in the later numpy formulas). -/
def getDiveNumber (ds1 : RawDSet) : Except String Val :=
  match alookup ds1.attrs "dive_number" with
  | some (PyV.q q) => Except.ok (some q)
  | some (PyV.s _) => Except.error "TypeError: dive_number"
  | none => Except.error "KeyError: dive_number"

/-- GPS fusion step of the pipeline, with its failure surfaced. -/
def gpsFuse (a b : DSet) : Except String DSet :=
  match add_gps_info_to_dataset a b with
  | some d => Except.ok d
  | none => Except.error "KeyError: log_gps variables"

/-- Profile-number step of the pipeline, with its failure surfaced. -/
def runProfile (ds : DSet) : Except String DSet :=
  match assign_profile_number ds "divenum" with
  | some d => Except.ok d
  | none => Except.error "IndexError: assign_profile_number"

/-- Phase step of the pipeline, with its failure surfaced. -/
def runPhase (ds : DSet) : Except String DSet :=
  match assign_phase ds with
  | some d => Except.ok d
  | none => Except.error "ValueError: assign_phase"

/-- Model of `process_dataset(ds1)`, parameterised by the YAML rename and
vocabulary tables, the unit tables and the external pressure-to-depth
conversion. Returns the processed stream, the attribute warnings and the
`sg_cal`, `dc_other` and `dc_log` groups, as the source does. -/
def process_dataset (renameDict : List (String × String))
    (vocabAttrs : List (String × List (String × String)))
    (unitFormat : List (String × String))
    (preferredUnits : List String)
    (unitConversion : List (String × List (String × PyV)))
    (zfromp : Val → Val → Val) (ds1 : RawDSet) :
    Except String (DSet × List String × List (String × RawVar) ×
      List (String × RawVar) × List (String × RawVar)) := do
  let divenumV ← getDiveNumber ds1
  let gpsGroup ← split_group ds1 ["gps_info"]
  let dimlessGroup ← split_group ds1 []
  let ex := extract_variables dimlessGroup
  let sgGroup ← split_group ds1 ["sg_data_point"]
  let renamed0 := groupToDSet (rename_dimensions dims_rename_dict sgGroup)
  let renamed1 := (rename_variables renameDict renamed0).1
  let r2 := assign_variable_attributes vocabAttrs unitFormat renamed1
  let renamed3 ← convert_units preferredUnits unitConversion r2.1
  let dsNew0 ← gpsFuse renamed3 (groupToDSet gpsGroup)
  let dsNew1 := add_dive_number dsNew0 divenumV
  let dsNew2 ← runProfile dsNew1
  let dsNew3 ← runPhase dsNew2
  let dsNew4 ← calc_Z zfromp dsNew3
  Except.ok (finalDrops dsNew4, r2.2, ex.1, ex.2.2, ex.2.1)

theorem except_bind_ok {α β : Type} {x : Except String α} {f : α → Except String β}
    {b : β} (h : Bind.bind x f = Except.ok b) :
    ∃ a, x = Except.ok a ∧ f a = Except.ok b := by
  rcases x with e | a
  · exact absurd h (fun hc => Except.noConfusion hc)
  · exact ⟨a, rfl, h⟩

theorem hasKey_adrop_self {α : Type} (l : List (String × α)) (k : String) :
    hasKey (adrop l k) k = false := by
  by_contra hc
  rw [Bool.not_eq_false, hasKey, List.any_eq_true] at hc
  obtain ⟨p, hp, he⟩ := hc
  rw [adrop, List.mem_filter] at hp
  rw [beq_iff_eq] at he
  have hne := hp.2
  rw [bne_iff_ne] at hne
  exact hne he

theorem hasKey_adrop_false {α : Type} (l : List (String × α)) (k1 k2 : String)
    (h : hasKey l k1 = false) : hasKey (adrop l k2) k1 = false := by
  by_contra hc
  rw [Bool.not_eq_false, hasKey, List.any_eq_true] at hc
  obtain ⟨p, hp, he⟩ := hc
  rw [adrop, List.mem_filter] at hp
  have : hasKey l k1 = true := by
    rw [hasKey, List.any_eq_true]
    exact ⟨p, hp.1, he⟩
  rw [h] at this
  exact Bool.noConfusion this

theorem finalDrops_spec (ds : DSet) :
    hasVar (finalDrops ds) "TIME_GPS" = false ∧
    hasVar (finalDrops ds) "time" = false := by
  rw [finalDrops]
  have h5 : hasVar (if hasVar ds "time" then dropVar ds "time" else ds) "time" = false := by
    by_cases h : hasVar ds "time" = true
    · rw [if_pos h]
      exact hasKey_adrop_self ds.vars "time"
    · rw [if_neg h]
      rw [Bool.not_eq_true] at h
      exact h
  constructor
  · by_cases h6 : hasVar (if hasVar ds "time" then dropVar ds "time" else ds)
        "TIME_GPS" = true
    · rw [if_pos h6]
      exact hasKey_adrop_self _ "TIME_GPS"
    · rw [if_neg h6]
      rw [Bool.not_eq_true] at h6
      exact h6
  · by_cases h6 : hasVar (if hasVar ds "time" then dropVar ds "time" else ds)
        "TIME_GPS" = true
    · rw [if_pos h6]
      exact hasKey_adrop_false _ "time" "TIME_GPS" h5
    · rw [if_neg h6]
      exact h5

/-- C6 (amended): whenever `process_dataset` returns, its output stream does
NOT expose `TIME_GPS` (nor `time`): both are dropped by the final block just
before the return, for every input and every choice of tables. -/
theorem process_dataset_spec (renameDict : List (String × String))
    (vocabAttrs : List (String × List (String × String)))
    (unitFormat : List (String × String))
    (preferredUnits : List String)
    (unitConversion : List (String × List (String × PyV)))
    (zfromp : Val → Val → Val) (ds1 : RawDSet)
    (out : DSet × List String × List (String × RawVar) ×
      List (String × RawVar) × List (String × RawVar))
    (hrun : process_dataset renameDict vocabAttrs unitFormat preferredUnits
      unitConversion zfromp ds1 = Except.ok out) :
    hasVar out.1 "TIME_GPS" = false ∧ hasVar out.1 "time" = false := by
  rw [process_dataset] at hrun
  obtain ⟨dv, _, hrun⟩ := except_bind_ok hrun
  obtain ⟨gg, _, hrun⟩ := except_bind_ok hrun
  obtain ⟨dg, _, hrun⟩ := except_bind_ok hrun
  obtain ⟨sg, _, hrun⟩ := except_bind_ok hrun
  obtain ⟨r3, _, hrun⟩ := except_bind_ok hrun
  obtain ⟨d0, _, hrun⟩ := except_bind_ok hrun
  obtain ⟨d2, _, hrun⟩ := except_bind_ok hrun
  obtain ⟨d3, _, hrun⟩ := except_bind_ok hrun
  obtain ⟨d4, _, hrun⟩ := except_bind_ok hrun
  injection hrun with h
  rw [← h]
  exact ⟨(finalDrops_spec d4).1, (finalDrops_spec d4).2⟩

/-- Rename table used by the concrete pipeline runs: the OG1 canonical names
needed downstream. -/
def renameC6 : List (String × String) :=
  [("pressure", "PRES"), ("latitude", "LATITUDE"), ("longitude", "LONGITUDE"),
   ("ctd_time", "TIME")]

/-- Concrete pressure-to-depth conversion standing in for `gsw.z_from_p`. -/
def zC6 : Val → Val → Val := fun p _ => Option.map Neg.neg p

/-- A concrete raw dive record: a three-point `sg_data_point` group, one GPS
fix and one calibration constant. -/
def dsC6raw : RawDSet :=
  ⟨[("pressure", ⟨["sg_data_point"], [some 10, some 30, some 20], [("units", "dbar")]⟩),
    ("latitude", ⟨["sg_data_point"], [some 50, some 50, some 50], []⟩),
    ("longitude", ⟨["sg_data_point"], [some 20, some 20, some 20], []⟩),
    ("ctd_time", ⟨["sg_data_point"], [some 100, some 200, some 300], []⟩),
    ("log_gps_lat", ⟨["gps_info"], [some 50], []⟩),
    ("log_gps_lon", ⟨["gps_info"], [some 20], []⟩),
    ("log_gps_time", ⟨["gps_info"], [some 50], []⟩),
    ("sg_cal_volmax", ⟨[], [some 1], []⟩)],
   [("dive_number", PyV.q 1)]⟩

/-- The concrete pipeline output. -/
def outC6 : DSet × List String × List (String × RawVar) ×
    List (String × RawVar) × List (String × RawVar) :=
  (process_dataset renameC6 [] unit_str_format preferred_units unit1_to_unit2
    zC6 dsC6raw).toOption.getD ⟨⟨0, []⟩, [], [], [], []⟩

/-- On the concrete dive record the pipeline succeeds, the fused output
carries LATITUDE_GPS and LONGITUDE_GPS, but TIME_GPS is absent: the claim
that the output exposes TIME_GPS is false. -/
theorem process_dataset_cex :
    (process_dataset renameC6 [] unit_str_format preferred_units unit1_to_unit2
      zC6 dsC6raw).toOption = some outC6 ∧
    hasVar outC6.1 "LATITUDE_GPS" = true ∧
    hasVar outC6.1 "LONGITUDE_GPS" = true ∧
    hasVar outC6.1 "TIME_GPS" = false := by
  exact ⟨rfl, by decide, by decide, by decide⟩

/-- The drop specification instantiated at the concrete pipeline run. -/
theorem process_dataset_spec_witness :
    hasVar outC6.1 "TIME_GPS" = false ∧ hasVar outC6.1 "time" = false :=
  process_dataset_spec renameC6 [] unit_str_format preferred_units unit1_to_unit2
    zC6 dsC6raw outC6 rfl

end SeagliderOG1
